import Mathlib

/-!
Shallow embedding of the engine inside `src/lib/bundle.cjs` of the
react-data-grid repository: the column metrics computation, the viewport
row window, the row grouping/flattening engine and the selection/edit
state machine, together with theorems checking the specification's
claims about them.

Conventions used throughout:
* JavaScript numbers that hold integral pixel/index values are modelled
  as `Int` (with `Int.fdiv` for `Math.floor` of a quotient).
* JavaScript reference equality (`===`) on opaque caller rows is
  modelled by Lean equality on an abstract type `Row` with decidable
  equality.
* A JavaScript callback that may be absent is modelled as an `Option`
  of a Lean function; an absent callback invocation channel is `none`.
* The observable effect "`onRowsChange` was invoked with array `rs`" is
  modelled by returning `some rs` from the embedded handler.
-/

namespace ReactDataGrid

/-- Key of the reserved selection column (`SELECT_COLUMN_KEY` in the source). -/
def SELECT_COLUMN_KEY : String := "select-row"

/-- Width declaration of a raw column: a numeric pixel width, a
well-formed percentage string (`/^\d+%$/`, pre-parsed to its numeral),
a malformed string, or `undefined`. -/
inductive ColumnWidth
  | px (w : Int)
  | pct (p : Nat)
  | malformed
  | unset
deriving DecidableEq

/-- Caller-supplied column fields read by `getColumnMetrics`.
Renderer/editor capability fields are opaque to the metrics engine and
are not part of this structure. -/
structure MetricsColumn where
  key : String
  width : ColumnWidth
  minWidth : Option Int
  maxWidth : Option Int
  frozen : Bool
  sortable : Option Bool
  resizable : Option Bool
deriving DecidableEq

/-- Column after the first `map` pass of `getColumnMetrics`: the width
is resolved-and-clamped or still unassigned, and the `frozen`/`rowGroup`
flags have been forced for group-by columns. -/
structure MidColumn where
  key : String
  width : Option Int
  minWidth : Option Int
  maxWidth : Option Int
  frozen : Bool
  rowGroup : Bool
  sortable : Option Bool
  resizable : Option Bool
deriving DecidableEq

/-- Fully calculated column as produced by `getColumnMetrics`. -/
structure CalculatedColumn where
  key : String
  idx : Nat
  width : Int
  left : Int
  frozen : Bool
  rowGroup : Bool
  isLastFrozenColumn : Bool
  sortable : Bool
  resizable : Bool
deriving DecidableEq

/-- Arguments of `getColumnMetrics`.  `columnWidths` is the per-key
manual-resize override map (`Map.has`/`Map.get` become one lookup
function); `rawGroupBy` is `undefined` or the active group-by key list. -/
structure ColumnMetricsArgs where
  rawColumns : List MetricsColumn
  columnWidths : String → Option Int
  minColumnWidth : Int
  viewportWidth : Int
  defaultSortable : Bool
  defaultResizable : Bool
  rawGroupBy : Option (List String)

/-- `getSpecifiedWidth` from the source: resize override first, then a
literal pixel width, then a percentage of the viewport (floored), else
unassigned.  Malformed width strings fall through to `undefined`. -/
def getSpecifiedWidth (c : MetricsColumn) (columnWidths : String → Option Int)
    (viewportWidth : Int) : Option Int :=
  match columnWidths c.key with
  | some w => some w
  | none =>
    match c.width with
    | .px w => some w
    | .pct p => some ((viewportWidth * (p : Int)).fdiv 100)
    | _ => none

/-- `clampColumnWidth` from the source: clamp below by
`minWidth ?? minColumnWidth`, and above by `maxWidth` when it is a
number. -/
def clampColumnWidth (width : Int) (minWidth maxWidth : Option Int)
    (minColumnWidth : Int) : Int :=
  let w := max width (minWidth.getD minColumnWidth)
  match maxWidth with
  | some mw => min w mw
  | none => w

/-- Per-column body of the first `map` pass of `getColumnMetrics`. -/
def mapColumn (args : ColumnMetricsArgs) (c : MetricsColumn) : MidColumn :=
  let width := (getSpecifiedWidth c args.columnWidths args.viewportWidth).map
    (fun w => clampColumnWidth w c.minWidth c.maxWidth args.minColumnWidth)
  let inGroupBy := (args.rawGroupBy.getD []).contains c.key
  { key := c.key, width := width, minWidth := c.minWidth, maxWidth := c.maxWidth,
    frozen := c.frozen || inGroupBy, rowGroup := inGroupBy,
    sortable := c.sortable, resizable := c.resizable }

/-- First `map` pass of `getColumnMetrics`. -/
def mapStage (args : ColumnMetricsArgs) : List MidColumn :=
  args.rawColumns.map (mapColumn args)

/-- Accumulated `allocatedWidths` of the first pass: the sum of all
resolved-and-clamped widths. -/
def allocatedWidths (args : ColumnMetricsArgs) : Int :=
  ((mapStage args).filterMap (·.width)).sum

/-- Accumulated `unassignedColumnsCount` of the first pass. -/
def unassignedColumnsCount (args : ColumnMetricsArgs) : Nat :=
  ((mapStage args).filter (fun c => c.width = none)).length

/-- Accumulated `lastFrozenColumnIndex` of the first pass: one less
than the number of (possibly group-by-forced) frozen columns. -/
def lastFrozenColumnIndexVal (args : ColumnMetricsArgs) : Int :=
  (((mapStage args).filter (·.frozen)).length : Int) - 1

/-- `Array.prototype.indexOf`: index of the first occurrence, `-1` when
absent. -/
def jsIndexOf [DecidableEq α] (a : α) : List α → Int
  | [] => -1
  | k :: ks =>
    if k = a then 0
    else
      let r := jsIndexOf a ks
      if r = -1 then -1 else r + 1

/-- Sort comparator of `getColumnMetrics`: reserved select column
first, then group-by columns ordered by their position in the group-by
list, then the remaining frozen columns, then the rest. -/
def compareColumns (rawGroupBy : Option (List String)) (a b : MidColumn) : Int :=
  let gb := rawGroupBy.getD []
  if a.key = SELECT_COLUMN_KEY then -1
  else if b.key = SELECT_COLUMN_KEY then 1
  else if gb.contains a.key then
    (if gb.contains b.key then jsIndexOf a.key gb - jsIndexOf b.key gb else -1)
  else if gb.contains b.key then 1
  else if a.frozen then (if b.frozen then 0 else -1)
  else if b.frozen then 1
  else 0

/-- `columns.sort(comparator)`.  ECMAScript 2019 requires
`Array.prototype.sort` to be stable; for a consistent comparator every
stable sort yields the same list, so the sort is embedded as the
canonical stable insertion sort ordered by `comparator ≤ 0`. -/
def sortStage (args : ColumnMetricsArgs) : List MidColumn :=
  List.insertionSort (fun a b => compareColumns args.rawGroupBy a b ≤ 0) (mapStage args)

/-- `unallocatedColumnWidth`: the leftover viewport width split evenly
(floored) among unassigned columns, never below the global minimum.
The source divides by `unassignedColumnsCount`; it only ever uses the
result when that count is positive, so the division-by-zero case is
irrelevant (Lean yields `0` where JavaScript would yield `NaN`). -/
def unallocatedColumnWidth (args : ColumnMetricsArgs) : Int :=
  max ((args.viewportWidth - allocatedWidths args).fdiv (unassignedColumnsCount args))
    args.minColumnWidth

/-- Second `map` pass of `getColumnMetrics`: assign the final width,
the sequential index and the running left offset, and accumulate
`totalWidth`, exactly as the source's loop does. -/
def calcColumnsAux (args : ColumnMetricsArgs) :
    List MidColumn → Nat → Int → Int → List CalculatedColumn × Int
  | [], _, _, totalWidth => ([], totalWidth)
  | c :: cs, idx, left, totalWidth =>
    let width := c.width.getD
      (clampColumnWidth (unallocatedColumnWidth args) c.minWidth c.maxWidth
        args.minColumnWidth)
    let newColumn : CalculatedColumn :=
      { key := c.key, idx := idx, width := width, left := left, frozen := c.frozen,
        rowGroup := c.rowGroup, isLastFrozenColumn := false,
        sortable := c.sortable.getD args.defaultSortable,
        resizable := c.resizable.getD args.defaultResizable }
    let rest := calcColumnsAux args cs (idx + 1) (left + width) (totalWidth + width)
    (newColumn :: rest.1, rest.2)

/-- In-place mutation `calculatedColumns[lastFrozenColumnIndex].isLastFrozenColumn = true`. -/
def markLastFrozen : List CalculatedColumn → Nat → List CalculatedColumn
  | [], _ => []
  | c :: cs, 0 => { c with isLastFrozenColumn := true } :: cs
  | c :: cs, n + 1 => c :: markLastFrozen cs n

/-- Result record of `getColumnMetrics`. -/
structure ColumnMetrics where
  columns : List CalculatedColumn
  lastFrozenColumnIndex : Int
  totalFrozenColumnWidth : Int
  totalColumnWidth : Int
  groupBy : List String
deriving DecidableEq

/-- `getColumnMetrics` from the source, assembled from the passes above. -/
def getColumnMetrics (args : ColumnMetricsArgs) : ColumnMetrics :=
  let sorted := sortStage args
  let calcPair := calcColumnsAux args sorted 0 0 0
  let lfci := lastFrozenColumnIndexVal args
  let cols := if 0 ≤ lfci then markLastFrozen calcPair.1 lfci.toNat else calcPair.1
  let totalFrozenColumnWidth :=
    if 0 ≤ lfci then
      match cols.get? lfci.toNat with
      | some c => c.left + c.width
      | none => 0
    else 0
  { columns := cols, lastFrozenColumnIndex := lfci,
    totalFrozenColumnWidth := totalFrozenColumnWidth,
    totalColumnWidth := calcPair.2,
    groupBy := (cols.filter (·.rowGroup)).map (·.key) }

/-- Scenario-A shaped input: columns `a` (width 100) and `b` (no width),
viewport width 300, no overrides, no grouping. -/
def argsA : ColumnMetricsArgs :=
  { rawColumns :=
      [ { key := "a", width := .px 100, minWidth := none, maxWidth := none,
          frozen := false, sortable := none, resizable := none },
        { key := "b", width := .unset, minWidth := none, maxWidth := none,
          frozen := false, sortable := none, resizable := none } ],
    columnWidths := fun _ => none,
    minColumnWidth := 80, viewportWidth := 300,
    defaultSortable := false, defaultResizable := false,
    rawGroupBy := none }

/-- First calculated column of `argsA`. -/
def colA0 : CalculatedColumn :=
  { key := "a", idx := 0, width := 100, left := 0, frozen := false,
    rowGroup := false, isLastFrozenColumn := false, sortable := false,
    resizable := false }

/-- Second calculated column of `argsA`: it receives the remaining
viewport width `300 - 100 = 200` and left offset `100`. -/
def colA1 : CalculatedColumn :=
  { key := "b", idx := 1, width := 200, left := 100, frozen := false,
    rowGroup := false, isLastFrozenColumn := false, sortable := false,
    resizable := false }

/-- Concatenation of the `f`-value buckets `n, n+1, …, n+B-1` of `l`:
each bucket lists, in the order of `l`, the elements whose `f`-value is
that bucket's value. -/
def bucketsFrom {α : Type} (f : α → Nat) (l : List α) : Nat → Nat → List α
  | _, 0 => []
  | n, B + 1 => l.filter (fun x => f x = n) ++ bucketsFrom f l (n + 1) B

/-- Numeric rank realising the comparator's total preorder: the select
column ranks `0`, a group-by column ranks `1 +` its group-by position,
a remaining frozen column ranks `length + 1`, anything else
`length + 2`. -/
def colRank (gb : List String) (c : MidColumn) : Nat :=
  if c.key = SELECT_COLUMN_KEY then 0
  else if gb.contains c.key then 1 + (jsIndexOf c.key gb).toNat
  else if c.frozen then gb.length + 1
  else gb.length + 2

/-- First sort segment described by the spec: the reserved select column. -/
def selectSegment (l : List MidColumn) : List MidColumn :=
  l.filter (fun c => c.key = SELECT_COLUMN_KEY)

/-- Second sort segment described by the spec: columns whose key is in
the active group-by list, in the exact order of that list (position by
position), ties keeping their original relative order. -/
def groupSegment (gb : List String) (l : List MidColumn) : List MidColumn :=
  ((List.range gb.length).map (fun (i : Nat) =>
    l.filter (fun c => ¬ c.key = SELECT_COLUMN_KEY ∧ c.key ∈ gb ∧
      jsIndexOf c.key gb = (i : Int)))).flatten

/-- Third sort segment described by the spec: the remaining frozen columns. -/
def frozenSegment (gb : List String) (l : List MidColumn) : List MidColumn :=
  l.filter (fun c => ¬ c.key = SELECT_COLUMN_KEY ∧ c.key ∉ gb ∧ c.frozen = true)

/-- Last sort segment described by the spec: all other columns. -/
def restSegment (gb : List String) (l : List MidColumn) : List MidColumn :=
  l.filter (fun c => ¬ c.key = SELECT_COLUMN_KEY ∧ c.key ∉ gb ∧ ¬ c.frozen = true)

/-- Batch size constant of `useViewportRows` (`RENDER_BACTCH_SIZE` in the
source, spelled as there). -/
def RENDER_BACTCH_SIZE : Int := 8

/-- Overscan threshold constant of `useViewportRows`. -/
def overscanThreshold : Int := 4

/-- `Math.ceil(x / y)` for integral `x` and positive integral `y`. -/
def jsCeilDiv (x y : Int) : Int := -((-x).fdiv y)

/-- `rowVisibleStartIdx = Math.floor(scrollTop / rowHeight)`. -/
def rowVisibleStartIdx (scrollTop rowHeight : Int) : Int :=
  scrollTop.fdiv rowHeight

/-- `rowVisibleEndIdx = Math.min(rows.length - 1, Math.floor((scrollTop + clientHeight) / rowHeight))`. -/
def rowVisibleEndIdx (rowsLength : Nat) (scrollTop clientHeight rowHeight : Int) : Int :=
  min ((rowsLength : Int) - 1) ((scrollTop + clientHeight).fdiv rowHeight)

/-- `rowOverscanStartIdx = Math.max(0, Math.floor((rowVisibleStartIdx - overscanThreshold) / RENDER_BACTCH_SIZE) * RENDER_BACTCH_SIZE)`. -/
def rowOverscanStartIdx (scrollTop rowHeight : Int) : Int :=
  max 0 (((rowVisibleStartIdx scrollTop rowHeight - overscanThreshold).fdiv
    RENDER_BACTCH_SIZE) * RENDER_BACTCH_SIZE)

/-- `rowOverscanEndIdx = Math.min(rows.length - 1, Math.ceil((rowVisibleEndIdx + overscanThreshold) / RENDER_BACTCH_SIZE) * RENDER_BACTCH_SIZE)`. -/
def rowOverscanEndIdx (rowsLength : Nat) (scrollTop clientHeight rowHeight : Int) : Int :=
  min ((rowsLength : Int) - 1)
    (jsCeilDiv (rowVisibleEndIdx rowsLength scrollTop clientHeight rowHeight +
      overscanThreshold) RENDER_BACTCH_SIZE * RENDER_BACTCH_SIZE)

/-- Group tree produced by `groupRows` in `useViewportRows`: when the
group-by key list is exhausted the node holds the child rows directly
(the JavaScript `Array.isArray` case of `expandGroup`); otherwise it is
the insertion-ordered mapping `groupKey → (childRows, childGroups,
startRowIndex)`. -/
inductive GroupTree (Row : Type) where
  | leafRows (rs : List Row)
  | groups (gs : List (String × List Row × GroupTree Row × Nat))

/-- Per-level loop of `groupRows`: walk the grouper's entries in
insertion order, recursing into each child via `child`, assigning each
group its `startRowIndex` and accumulating `groupRowsCount` (`acc`). -/
def groupLevel {Row : Type} (child : List Row → Nat → GroupTree Row × Nat) :
    List (String × List Row) → Nat → Nat →
      List (String × List Row × GroupTree Row × Nat) × Nat
  | [], _, acc => ([], acc)
  | (key, childRows) :: rest, startRowIndex, acc =>
    let c := child childRows (startRowIndex + acc + 1)
    let r := groupLevel child rest startRowIndex (acc + c.2 + 1)
    ((key, childRows, c.1, startRowIndex + acc) :: r.1, r.2)

/-- `groupRows` from `useViewportRows`, with the head group-by key
split off (the source is only called with a non-empty key list). -/
def groupRowsFn {Row : Type}
    (rowGrouper : List Row → String → List (String × List Row)) :
    String → List String → List Row → Nat → GroupTree Row × Nat
  | key, remaining, rows, startRowIndex =>
    let child : List Row → Nat → GroupTree Row × Nat :=
      match remaining with
      | [] => fun rs _ => (GroupTree.leafRows rs, rs.length)
      | k :: ks => fun rs s => groupRowsFn rowGrouper k ks rs s
    let r := groupLevel child (rowGrouper rows key) startRowIndex 0
    (GroupTree.groups r.1, r.2)

/-- A flattened group-header entry (`groupRow` in the source). -/
structure GroupRow (Row : Type) where
  id : String
  parentId : Option String
  groupKey : String
  isExpanded : Bool
  childRows : List Row
  level : Nat
  posInSet : Nat
  startRowIndex : Nat
  setSize : Nat
deriving DecidableEq

/-- An entry of the flattened display sequence: a raw caller row or a
group header.  Membership of the source's `allGroupRows` set (used by
`isGroupRow`) is modelled by the constructor: the source only ever adds
freshly created group-row objects to that set, so a flattened entry is
in it exactly when it is a group header. -/
inductive FlatRow (Row : Type) where
  | raw (r : Row)
  | group (g : GroupRow Row)
deriving DecidableEq

mutual

/-- `expandGroup` from `useViewportRows`: leaf levels contribute their
rows; a groups level contributes, per group in insertion order, a
header entry followed (only when the group's id is in the expanded
set) by its recursively flattened children. -/
def expandGroup {Row : Type} (expandedGroupIds : Option (List String)) :
    GroupTree Row → Option String → Nat → List (FlatRow Row)
  | .leafRows rs, _, _ => rs.map .raw
  | .groups gs, parentId, level =>
    expandEntries expandedGroupIds parentId level gs.length gs 0

/-- The `forEach` body of `expandGroup`, with `posInSet` threaded. -/
def expandEntries {Row : Type} (expandedGroupIds : Option (List String))
    (parentId : Option String) (level : Nat) (setSize : Nat) :
    List (String × List Row × GroupTree Row × Nat) → Nat → List (FlatRow Row)
  | [], _ => []
  | (groupKey, childRows, childGroups, startRowIndex) :: rest, posInSet =>
    let id : String :=
      match parentId with
      | some p => p ++ "__" ++ groupKey
      | none => groupKey
    let isExpanded := (expandedGroupIds.getD []).contains id
    let groupRow : GroupRow Row :=
      { id := id, parentId := parentId, groupKey := groupKey,
        isExpanded := isExpanded, childRows := childRows, level := level,
        posInSet := posInSet, startRowIndex := startRowIndex,
        setSize := setSize }
    (FlatRow.group groupRow ::
        (if isExpanded then expandGroup expandedGroupIds childGroups (some id) (level + 1)
          else []))
      ++ expandEntries expandedGroupIds parentId level setSize rest (posInSet + 1)

end

/-- The flattened display row list of `useViewportRows`: the raw rows
unchanged when no grouping is active, otherwise the expanded flattening
of the group tree. -/
def computeRows {Row : Type} (rawRows : List Row) (groupBy : List String)
    (rowGrouper : Option (List Row → String → List (String × List Row)))
    (expandedGroupIds : Option (List String)) : List (FlatRow Row) :=
  match groupBy, rowGrouper with
  | [], _ => rawRows.map .raw
  | _ :: _, none => rawRows.map .raw
  | k :: ks, some grouper =>
    expandGroup expandedGroupIds (groupRowsFn grouper k ks rawRows 0).1 none 0

/-- `rowsCount` of `useViewportRows`: the construction-time count
(headers plus all rows, ignoring collapse state), or the raw length
when no grouping is active. -/
def computeRowsCount {Row : Type} (rawRows : List Row) (groupBy : List String)
    (rowGrouper : Option (List Row → String → List (String × List Row))) : Nat :=
  match groupBy, rowGrouper with
  | [], _ => rawRows.length
  | _ :: _, none => rawRows.length
  | k :: ks, some grouper => (groupRowsFn grouper k ks rawRows 0).2

/-- Grouper splitting six rows into two groups of three, for the C8
witness (Scenario E shape). -/
def grouperE : List Nat → String → List (String × List Nat) :=
  fun _ _ => [("g1", [1, 2, 3]), ("g2", [4, 5, 6])]

/-- `cellNavigationMode` prop. -/
inductive CellNavigationMode where
  | NONE
  | CHANGE_ROW
  | LOOP_OVER_ROW
deriving DecidableEq

/-- The `editable` declaration of a column: absent, a boolean flag, or
a per-row predicate. -/
inductive EditableSpec (Row : Type) where
  | unset
  | flag (b : Bool)
  | pred (f : Row → Bool)

/-- Column fields read by the selection/edit state machine.  `editor`
models `column.editor != null`; renderers themselves are opaque. -/
structure GridColumn (Row : Type) where
  key : String
  editor : Bool
  rowGroup : Bool
  editable : EditableSpec Row

/-- A cell position `{idx, rowIdx}`. -/
structure Position where
  idx : Int
  rowIdx : Int
deriving DecidableEq

/-- The `selectedPosition` state: `SELECT` carries only the indices,
`EDIT` additionally carries the trigger key, the staged row and the
pristine original row. -/
inductive SelectedPosition (Row : Type) where
  | select (idx rowIdx : Int)
  | edit (idx rowIdx : Int) (key : Option String) (row originalRow : Row)
deriving DecidableEq

/-- Column index of a selected position. -/
def SelectedPosition.idx {Row : Type} : SelectedPosition Row → Int
  | .select i _ => i
  | .edit i _ _ _ _ => i

/-- Row index of a selected position. -/
def SelectedPosition.rowIdx {Row : Type} : SelectedPosition Row → Int
  | .select _ r => r
  | .edit _ r _ _ _ => r

/-- Whether the position is in `EDIT` mode. -/
def SelectedPosition.isEdit {Row : Type} : SelectedPosition Row → Bool
  | .select _ _ => false
  | .edit _ _ _ _ _ => true

/-- The initial/unselected sentinel position. -/
def initialPosition {Row : Type} : SelectedPosition Row :=
  .select (-1) (-1)

/-- JavaScript indexed read `l[i]`; `none` models `undefined`. -/
def listGetInt {α : Type} (l : List α) (i : Int) : Option α :=
  if i < 0 then none else l.get? i.toNat

/-- JavaScript `arr[i] = v` performed on a copy of `arr`, for an index
inside the array (the only regime the theorems exercise; other indices
would create holes or plain properties in JavaScript). -/
def jsArraySet {α : Type} (l : List α) (i : Int) (v : α) : List α :=
  if 0 ≤ i ∧ i < (l.length : Int) then l.set i.toNat v else l

/-- `isGroupRow`: the source tests membership of the `allGroupRows`
set, which contains exactly the freshly created group-header objects of
the current flattening, so the test is the constructor test here. -/
def FlatRow.isGroupRow {Row : Type} : FlatRow Row → Bool
  | .raw _ => false
  | .group _ => true

/-- Grid-level inputs of the selection/edit state machine: the
calculated columns, the flattened rows, the raw backing rows, whether
grouping is active, the navigation mode, and which of the caller's
callbacks are present.  `onPaste` receives
`(sourceRow, sourceColumnKey, targetRow, targetColumnKey)`; its target
row is an `Option` because the source reads it with an unchecked
indexed access. -/
structure GridEnv (Row : Type) where
  columns : List (GridColumn Row)
  rows : List (FlatRow Row)
  rawRows : List Row
  hasGroups : Bool
  cellNavigationMode : CellNavigationMode
  hasOnRowsChange : Bool
  onPaste : Option (Row → String → Option Row → String → Row)

/-- `minColIdx = hasGroups ? -1 : 0`. -/
def minColIdx {Row : Type} (env : GridEnv Row) : Int :=
  if env.hasGroups then -1 else 0

/-- `isCellWithinBounds` from the source. -/
def isCellWithinBounds {Row : Type} (env : GridEnv Row) (p : Position) : Bool :=
  decide (0 ≤ p.rowIdx) && decide (p.rowIdx < (env.rows.length : Int)) &&
    decide (minColIdx env ≤ p.idx) && decide (p.idx < (env.columns.length : Int))

/-- `isSelectedCellEditable` from the source: the column has an editor,
is not a row-group column, the row is not a group row, and the
column's `editable` flag/predicate does not evaluate to `false`
(`undefined` counts as editable).  All call sites bounds-check first;
an out-of-range access (JavaScript `undefined`) yields `false` here. -/
def isSelectedCellEditable {Row : Type} (env : GridEnv Row) (p : Position) : Bool :=
  match listGetInt env.columns p.idx, listGetInt env.rows p.rowIdx with
  | some column, some (.raw r) =>
    column.editor && !column.rowGroup &&
      (match column.editable with
       | .unset => true
       | .flag b => b
       | .pred f => f r)
  | some _, some (.group _) => false
  | _, _ => false

/-- `isCellEditable` from the source. -/
def isCellEditable {Row : Type} (env : GridEnv Row) (p : Position) : Bool :=
  isCellWithinBounds env p && isSelectedCellEditable env p

/-- `getRawRowIdx`: display index when no grouping is active, else the
index of the displayed row object in the raw row array (`-1` when the
entry is a group header or the object is not in the array, matching
`Array.prototype.indexOf`). -/
def getRawRowIdx {Row : Type} [DecidableEq Row] (env : GridEnv Row) (rowIdx : Int) : Int :=
  if env.hasGroups then
    match listGetInt env.rows rowIdx with
    | some (.raw r) => jsIndexOf r env.rawRows
    | _ => -1
  else rowIdx

/-- `commitEditorChanges` from the source; the returned value is the
argument of the single `onRowsChange` invocation, `none` when no
invocation happens. -/
def commitEditorChanges {Row : Type} [DecidableEq Row] (env : GridEnv Row) :
    SelectedPosition Row → Option (List Row)
  | .select _ _ => none
  | .edit idx rowIdx _ row originalRow =>
    match listGetInt env.columns idx with
    | none => none
    | some column =>
      if !column.editor then none
      else if row = originalRow then none
      else if env.hasOnRowsChange then
        some (jsArraySet env.rawRows (getRawRowIdx env rowIdx) row)
      else none

/-- `closeEditor` from the source. -/
def closeEditor {Row : Type} (st : SelectedPosition Row) : SelectedPosition Row :=
  match st with
  | .select i r => .select i r
  | .edit i r _ _ _ => .select i r

/-- `selectCell` from the source: reject out-of-bounds targets, commit
any pending edit, then enter `EDIT` when requested on an editable cell
(snapshotting the row as both staged and original), else `SELECT`.
The second component is the `onRowsChange` payload of the embedded
commit.  (`onSelectedCellChange` is a pure notification and is not
modelled.) -/
def selectCell {Row : Type} [DecidableEq Row] (env : GridEnv Row)
    (st : SelectedPosition Row) (p : Position) (enableEditor : Bool) :
    SelectedPosition Row × Option (List Row) :=
  if !(isCellWithinBounds env p) then (st, none)
  else
    let payload := commitEditorChanges env st
    if enableEditor && isCellEditable env p then
      match listGetInt env.rows p.rowIdx with
      | some (.raw r) => (.edit p.idx p.rowIdx none r r, payload)
      | _ => (.select p.idx p.rowIdx, payload)
    else (.select p.idx p.rowIdx, payload)

/-- The two render-time consistency guards of `DataGrid` (out-of-bounds
reset, then stale-edit force-close).  The stale check reads the
pre-render state while its functional updater applies to the state the
reset produced, exactly as the two queued `setSelectedPosition` calls
compose in the source.  The render path never invokes `onRowsChange`;
the second component records that absent invocation. -/
def renderGuards {Row : Type} [DecidableEq Row] (env : GridEnv Row)
    (st : SelectedPosition Row) : SelectedPosition Row × Option (List Row) :=
  let st1 :=
    if (env.columns.length : Int) ≤ st.idx ∨ (env.rows.length : Int) ≤ st.rowIdx then
      initialPosition
    else st
  match st with
  | .select _ _ => (st1, none)
  | .edit _ rowIdx _ _ originalRow =>
    if listGetInt env.rows rowIdx ≠ some (.raw originalRow) then
      (.select st1.idx st1.rowIdx, none)
    else (st1, none)

/-- The `copiedCell` state. -/
structure CopiedCell (Row : Type) where
  row : Row
  columnKey : String
deriving DecidableEq

/-- `handlePaste` from the source: requires the `onPaste` and
`onRowsChange` callbacks, a non-null copied cell and an editable
target; reads the target row at the raw (ungrouped) index, merges via
`onPaste`, and writes the merged row at the display index `rowIdx`
into a copy of the raw rows, which is the `onRowsChange` payload. -/
def handlePaste {Row : Type} [DecidableEq Row] (env : GridEnv Row)
    (st : SelectedPosition Row) (copiedCell : Option (CopiedCell Row)) :
    Option (List Row) :=
  let idx := st.idx
  let rowIdx := st.rowIdx
  let targetRow := listGetInt env.rawRows (getRawRowIdx env rowIdx)
  match env.onPaste with
  | none => none
  | some onPaste =>
    if !env.hasOnRowsChange then none
    else
      match copiedCell with
      | none => none
      | some cc =>
        if !(isCellEditable env ⟨idx, rowIdx⟩) then none
        else
          let targetColumnKey :=
            match listGetInt env.columns idx with
            | some c => c.key
            | none => ""
          let updatedTargetRow := onPaste cc.row cc.columnKey targetRow targetColumnKey
          some (jsArraySet env.rawRows rowIdx updatedTargetRow)

/-- `handleRowChange` from the source (editor typing/commit). -/
def handleRowChange {Row : Type} [DecidableEq Row] (env : GridEnv Row)
    (st : SelectedPosition Row) (row : Row) (commitChanges : Bool) :
    SelectedPosition Row × Option (List Row) :=
  match st with
  | .select i r => (.select i r, none)
  | .edit idx rowIdx k _ orig =>
    if commitChanges then
      (.select idx rowIdx,
        if env.hasOnRowsChange then
          some (jsArraySet env.rawRows (getRawRowIdx env rowIdx) row)
        else none)
    else (.edit idx rowIdx k row orig, none)

/-- `getNextSelectedCellPosition` from the source: boundary-wrap the
candidate position according to the navigation mode. -/
def getNextSelectedCellPosition (cellNavigationMode : CellNavigationMode)
    (columnsCount rowsCount : Nat) (nextPosition : Position) : Position :=
  if cellNavigationMode ≠ .NONE then
    let idx := nextPosition.idx
    let rowIdx := nextPosition.rowIdx
    if idx = (columnsCount : Int) then
      match cellNavigationMode with
      | .CHANGE_ROW =>
        if rowIdx = (rowsCount : Int) - 1 then nextPosition
        else { idx := 0, rowIdx := rowIdx + 1 }
      | .LOOP_OVER_ROW => { idx := 0, rowIdx := rowIdx }
      | .NONE => nextPosition
    else if idx = -1 then
      match cellNavigationMode with
      | .CHANGE_ROW =>
        if rowIdx = 0 then nextPosition
        else { idx := (columnsCount : Int) - 1, rowIdx := rowIdx - 1 }
      | .LOOP_OVER_ROW => { idx := (columnsCount : Int) - 1, rowIdx := rowIdx }
      | .NONE => nextPosition
    else nextPosition
  else nextPosition

/-- `canExitGrid` from the source. -/
def canExitGrid {Row : Type} (env : GridEnv Row) (st : SelectedPosition Row)
    (shiftKey : Bool) : Bool :=
  if env.cellNavigationMode = .NONE ∨ env.cellNavigationMode = .CHANGE_ROW then
    let atLastCellInRow := decide (st.idx = (env.columns.length : Int) - 1)
    let atFirstCellInRow := decide (st.idx = 0)
    let atLastRow := decide (st.rowIdx = (env.rows.length : Int) - 1)
    let atFirstRow := decide (st.rowIdx = 0)
    if shiftKey then atFirstCellInRow && atFirstRow else atLastCellInRow && atLastRow
  else false

/-- Navigation keys handled by `handleKeyDown`/`navigate`. -/
inductive NavKey where
  | ArrowUp
  | ArrowDown
  | ArrowLeft
  | ArrowRight
  | Tab
  | Home
  | End
  | PageUp
  | PageDown
deriving DecidableEq

/-- The downward scan of `getNextPosition` looking for the nearest
ancestor group row (`for (let i = rowIdx - 1; i >= 0; i--)`), checking
index `i` and descending. -/
def findParentRowIdxGo {Row : Type} (rows : List (FlatRow Row))
    (pid : Option String) : Nat → Int
  | 0 =>
    match rows.get? 0 with
    | some (.group g) => if some g.id = pid then 0 else -1
    | _ => -1
  | i + 1 =>
    match rows.get? (i + 1) with
    | some (.group g) =>
      if some g.id = pid then (i : Int) + 1 else findParentRowIdxGo rows pid i
    | _ => findParentRowIdxGo rows pid i

/-- Result of the ancestor scan started at `rowIdx - 1` (`-1` when the
loop finds nothing or does not run). -/
def findParentRowIdx {Row : Type} (rows : List (FlatRow Row)) (pid : Option String)
    (rowIdx : Int) : Int :=
  if rowIdx - 1 < 0 then -1 else findParentRowIdxGo rows pid (rowIdx - 1).toNat

/-- `getNextPosition` from the source: the candidate position for a
navigation key, including the collapsed-group ArrowLeft jump to the
nearest ancestor group row. -/
def getNextPosition {Row : Type} (env : GridEnv Row) (clientHeight rowHeight : Int)
    (st : SelectedPosition Row) (key : NavKey) (ctrlKey shiftKey : Bool) : Position :=
  let idx := st.idx
  let rowIdx := st.rowIdx
  let row := listGetInt env.rows rowIdx
  let isRowSelected := isCellWithinBounds env ⟨idx, rowIdx⟩ && decide (idx = -1)
  let special : Option Position :=
    if key = .ArrowLeft then
      match row with
      | some (.group g) =>
        if isRowSelected && !g.isExpanded && decide (g.level ≠ 0) then
          let parentRowIdx := findParentRowIdx env.rows g.parentId rowIdx
          if parentRowIdx ≠ -1 then some ⟨idx, parentRowIdx⟩ else none
        else none
      | _ => none
    else none
  match special with
  | some p => p
  | none =>
    match key with
    | .ArrowUp => ⟨idx, rowIdx - 1⟩
    | .ArrowDown => ⟨idx, rowIdx + 1⟩
    | .ArrowLeft => ⟨idx - 1, rowIdx⟩
    | .ArrowRight => ⟨idx + 1, rowIdx⟩
    | .Tab =>
      if idx = -1 ∧ rowIdx = -1 then
        if shiftKey then ⟨(env.columns.length : Int) - 1, (env.rows.length : Int) - 1⟩
        else ⟨0, 0⟩
      else ⟨idx + (if shiftKey then -1 else 1), rowIdx⟩
    | .Home =>
      if isRowSelected then ⟨idx, 0⟩
      else if ctrlKey then ⟨0, 0⟩ else ⟨0, rowIdx⟩
    | .End =>
      if isRowSelected then ⟨idx, (env.rows.length : Int) - 1⟩
      else if ctrlKey then ⟨(env.columns.length : Int) - 1, (env.rows.length : Int) - 1⟩
      else ⟨(env.columns.length : Int) - 1, rowIdx⟩
    | .PageUp => ⟨idx, rowIdx - clientHeight.fdiv rowHeight⟩
    | .PageDown => ⟨idx, rowIdx + clientHeight.fdiv rowHeight⟩

/-- `navigate` from the source: gate on the editor's navigation
predicate while editing (`editorAllowsNavigation` models the
`onNavigation(event)` result), compute the candidate, let Tab exit the
grid at its corners, force `CHANGE_ROW` for Tab in `NONE` mode, wrap
via `getNextSelectedCellPosition`, and select. -/
def navigate {Row : Type} [DecidableEq Row] (env : GridEnv Row)
    (clientHeight rowHeight : Int) (st : SelectedPosition Row) (key : NavKey)
    (ctrlKey shiftKey editorAllowsNavigation : Bool) :
    SelectedPosition Row × Option (List Row) :=
  if st.isEdit && !editorAllowsNavigation then (st, none)
  else
    let nextPosition := getNextPosition env clientHeight rowHeight st key ctrlKey shiftKey
    if key = .Tab && canExitGrid env st shiftKey then (st, none)
    else
      let mode :=
        if key = .Tab && env.cellNavigationMode = .NONE then .CHANGE_ROW
        else env.cellNavigationMode
      let wrapped :=
        getNextSelectedCellPosition mode env.columns.length env.rows.length nextPosition
      selectCell env st wrapped false

/-- `handleCellInput` from the source, as far as it touches the
selection state: while editing, Enter commits and closes; in `SELECT`
mode an editable cell plus a default-input key (unless the column's
`editorOptions.onCellKeyDown` prevented the event) enters `EDIT` with
the current row snapshotted. -/
def handleCellInput {Row : Type} [DecidableEq Row] (env : GridEnv Row)
    (st : SelectedPosition Row) (key : Option String)
    (isEnterKey isDefaultInput prevented : Bool) :
    SelectedPosition Row × Option (List Row) :=
  if !(isCellWithinBounds env ⟨st.idx, st.rowIdx⟩) then (st, none)
  else
    match listGetInt env.rows st.rowIdx with
    | some (.group _) => (st, none)
    | none => (st, none)
    | some (.raw r) =>
      match st with
      | .edit i ri k row orig =>
        if isEnterKey then
          (.select i ri, commitEditorChanges env (.edit i ri k row orig))
        else (.edit i ri k row orig, none)
      | .select idx rowIdx =>
        if prevented then (.select idx rowIdx, none)
        else if isCellEditable env ⟨idx, rowIdx⟩ && isDefaultInput then
          (.edit idx rowIdx key r r, none)
        else (.select idx rowIdx, none)

/-- Ungrouped 3-column × 2-row environment (Scenario-B shape) used by
the witnesses. -/
def envW : GridEnv Nat :=
  { columns := [⟨"a", true, false, .unset⟩, ⟨"b", false, false, .unset⟩,
      ⟨"c", false, false, .unset⟩],
    rows := [.raw 10, .raw 20],
    rawRows := [10, 20],
    hasGroups := false,
    cellNavigationMode := .CHANGE_ROW,
    hasOnRowsChange := true,
    onPaste := none }

/-- Grouped environment exhibiting the paste divergence: one expanded
group of raw rows `[10, 20, 30]`, one editable column `x`; the
flattened rows are the group header followed by the three raw rows, so
display row 2 is raw row 20 (raw index 1). -/
def pasteEnv : GridEnv Nat :=
  { columns := [⟨"x", true, false, .unset⟩],
    rows := [.group ⟨"g", none, "g", true, [10, 20, 30], 0, 0, 0, 1⟩,
      .raw 10, .raw 20, .raw 30],
    rawRows := [10, 20, 30],
    hasGroups := true,
    cellNavigationMode := .NONE,
    hasOnRowsChange := true,
    onPaste := some (fun _ _ _ _ => 999) }

/-- Errors thrown by the selection machinery.  `invalidKeyGetter` is
the `assertIsValidKeyGetter` failure ("Please specify the rowKeyGetter
prop to use selection"); `undefinedAccess` marks a read the source
performs on a row index outside the list, where JavaScript would hand
`undefined` to caller code. -/
inductive GridError where
  | invalidKeyGetter
  | undefinedAccess
deriving DecidableEq

/-- `assertIsValidKeyGetter` from the source: a missing/non-function
key getter throws. -/
def assertIsValidKeyGetter {Row K : Type} (kg : Option (Row → K)) :
    Except GridError (Row → K) :=
  match kg with
  | none => .error .invalidKeyGetter
  | some f => .ok f

/-- JavaScript `Set.prototype.add` on an insertion-ordered set. -/
def jsSetAdd {K : Type} [DecidableEq K] (s : List K) (k : K) : List K :=
  if k ∈ s then s else s ++ [k]

/-- JavaScript `Set.prototype.delete` on an insertion-ordered set. -/
def jsSetDelete {K : Type} [DecidableEq K] (s : List K) (k : K) : List K :=
  s.erase k

/-- The indices visited by the shift-click loop
`for (let i = previousRowIdx + step; i !== rowIdx; i += step)`. -/
def shiftClickIndices (previousRowIdx rowIdx : Int) : List Int :=
  if previousRowIdx < rowIdx then
    (List.range (rowIdx - previousRowIdx - 1).toNat).map
      (fun i => previousRowIdx + 1 + (i : Int))
  else
    (List.range (previousRowIdx - rowIdx - 1).toNat).map
      (fun i => previousRowIdx - 1 - (i : Int))

/-- `handleRowSelectionChange` from the source: assert the key getter
first, then toggle a group row's children atomically, or toggle a
single row (extending over the shift-click range, skipping group
rows).  Returns the new selected-key set and the new
`lastSelectedRowIdx` ref value. -/
def handleRowSelectionChange {Row K : Type} [DecidableEq Row] [DecidableEq K]
    (rows : List (FlatRow Row)) (rowKeyGetter : Option (Row → K))
    (selectedRows : List K) (lastSelectedRowIdx : Int)
    (rowIdx : Int) (checked isShiftClick : Bool) :
    Except GridError (List K × Int) :=
  match assertIsValidKeyGetter rowKeyGetter with
  | .error e => .error e
  | .ok kg =>
    match listGetInt rows rowIdx with
    | none => .error .undefinedAccess
    | some (.group g) =>
      let newSelectedRows := g.childRows.foldl
        (fun s childRow =>
          if checked then jsSetAdd s (kg childRow) else jsSetDelete s (kg childRow))
        selectedRows
      .ok (newSelectedRows, lastSelectedRowIdx)
    | some (.raw r) =>
      if checked then
        let s1 := jsSetAdd selectedRows (kg r)
        if isShiftClick && decide (lastSelectedRowIdx ≠ -1)
            && decide (lastSelectedRowIdx ≠ rowIdx) then
          let s2 := (shiftClickIndices lastSelectedRowIdx rowIdx).foldl
            (fun s i =>
              match listGetInt rows i with
              | some (.raw rr) => jsSetAdd s (kg rr)
              | _ => s)
            s1
          .ok (s2, rowIdx)
        else .ok (s1, rowIdx)
      else .ok (jsSetDelete selectedRows (kg r), -1)

/-- `handleAllRowsSelectionChange` from `HeaderRow`: no-op without the
selection callback, otherwise assert the key getter and emit the full
or empty key set. -/
def handleAllRowsSelectionChange {Row K : Type} [DecidableEq K]
    (rows : List Row) (rowKeyGetter : Option (Row → K))
    (hasOnSelectedRowsChange : Bool) (checked : Bool) :
    Except GridError (Option (List K)) :=
  if !hasOnSelectedRowsChange then .ok none
  else
    match assertIsValidKeyGetter rowKeyGetter with
    | .error e => .error e
    | .ok kg =>
      .ok (some (if checked then rows.foldl (fun s r => jsSetAdd s (kg r)) [] else []))

/-- The operations of the selection/edit state machine that write the
`selectedPosition` state. -/
inductive GridOp (Row : Type) where
  | selectCellOp (p : Position) (enableEditor : Bool)
  | closeEditorOp
  | navigateOp (clientHeight rowHeight : Int) (key : NavKey)
      (ctrlKey shiftKey editorAllowsNavigation : Bool)
  | cellInputOp (key : Option String) (isEnterKey isDefaultInput prevented : Bool)
  | rowChangeOp (row : Row) (commitChanges : Bool)
  | commitOp
  | renderOp

/-- One step of the selection state machine in environment `env`
(`commitEditorChanges` never writes the position, so `commitOp` keeps
the state; a `renderOp` runs the render-time guards against the
environment current at that render). -/
def stepOp {Row : Type} [DecidableEq Row] (env : GridEnv Row) (op : GridOp Row)
    (st : SelectedPosition Row) : SelectedPosition Row :=
  match op with
  | .selectCellOp p e => (selectCell env st p e).1
  | .closeEditorOp => closeEditor st
  | .navigateOp ch rh key c s a => (navigate env ch rh st key c s a).1
  | .cellInputOp k e d pv => (handleCellInput env st k e d pv).1
  | .rowChangeOp row c => (handleRowChange env st row c).1
  | .commitOp => st
  | .renderOp => (renderGuards env st).1

/-- The invariant exactly as the claim states it: sentinel, or bounds
with the grouping-dependent column lower bound `minColIdx`. -/
def claimedInvariant {Row : Type} (env : GridEnv Row) (st : SelectedPosition Row) : Prop :=
  st = SelectedPosition.select (-1) (-1) ∨
    (0 ≤ st.rowIdx ∧ st.rowIdx < (env.rows.length : Int) ∧
      minColIdx env ≤ st.idx ∧ st.idx < (env.columns.length : Int))

instance {Row : Type} [DecidableEq Row] (env : GridEnv Row) (st : SelectedPosition Row) :
    Decidable (claimedInvariant env st) := by
  unfold claimedInvariant minColIdx
  infer_instance

/-- The invariant the code actually maintains: sentinel, or bounds
with the grouping-independent column lower bound `-1`. -/
def selectionInvariant {Row : Type} (env : GridEnv Row) (st : SelectedPosition Row) : Prop :=
  st = SelectedPosition.select (-1) (-1) ∨
    (0 ≤ st.rowIdx ∧ st.rowIdx < (env.rows.length : Int) ∧
      -1 ≤ st.idx ∧ st.idx < (env.columns.length : Int))

instance {Row : Type} [DecidableEq Row] (env : GridEnv Row) (st : SelectedPosition Row) :
    Decidable (selectionInvariant env st) := by
  unfold selectionInvariant
  infer_instance

/-- Grouped 1-column environment: a group header and two leaf rows. -/
def envG1 : GridEnv Nat :=
  { columns := [⟨"g", false, true, .unset⟩],
    rows := [.group ⟨"g", none, "g", false, [1, 2], 0, 0, 0, 1⟩, .raw 1, .raw 2],
    rawRows := [1, 2],
    hasGroups := true,
    cellNavigationMode := .NONE,
    hasOnRowsChange := false,
    onPaste := none }

/-- The same grid after the caller removes the grouper: the flattened
rows are the raw rows and `minColIdx` becomes 0; the columns are
unchanged. -/
def envG2 : GridEnv Nat :=
  { columns := [⟨"g", false, true, .unset⟩],
    rows := [.raw 1, .raw 2],
    rawRows := [1, 2],
    hasGroups := false,
    cellNavigationMode := .NONE,
    hasOnRowsChange := false,
    onPaste := none }

/-- The accumulated `totalWidth` returned by the second pass equals its
initial value plus the sum of the produced widths. -/
theorem calcColumnsAux_total (args : ColumnMetricsArgs) (l : List MidColumn) :
    ∀ (idx : Nat) (left tw : Int),
      (calcColumnsAux args l idx left tw).2 =
        tw + ((calcColumnsAux args l idx left tw).1.map (·.width)).sum := by
  induction l with
  | nil => intro idx left tw; simp [calcColumnsAux]
  | cons c cs ih =>
    intro idx left tw
    simp only [calcColumnsAux, List.map_cons, List.sum_cons]
    rw [ih]
    ring

/-- The head of the second pass's output carries the initial left offset. -/
theorem calcColumnsAux_head_left (args : ColumnMetricsArgs) (l : List MidColumn)
    (idx : Nat) (left tw : Int) :
    ∀ c, (calcColumnsAux args l idx left tw).1.head? = some c → c.left = left := by
  cases l with
  | nil => intro c h; simp [calcColumnsAux] at h
  | cons x xs =>
    intro c h
    simp only [calcColumnsAux, List.head?_cons, Option.some.injEq] at h
    subst h
    rfl

/-- Left offsets produced by the second pass are contiguous. -/
theorem calcColumnsAux_chain (args : ColumnMetricsArgs) (l : List MidColumn) :
    ∀ (idx : Nat) (left tw : Int),
      List.Chain' (fun a b => a.left + a.width = b.left)
        (calcColumnsAux args l idx left tw).1 := by
  induction l with
  | nil => intro idx left tw; simp [calcColumnsAux]
  | cons c cs ih =>
    intro idx left tw
    simp only [calcColumnsAux]
    refine List.Chain'.cons' (ih ..) ?_
    intro y hy
    have := calcColumnsAux_head_left args cs (idx + 1) _ _ y hy
    rw [this]

/-- Marking the last frozen column only flips a flag: any projection
that ignores `isLastFrozenColumn` is unchanged. -/
theorem markLastFrozen_map {β : Type} (f : CalculatedColumn → β)
    (hf : ∀ c, f { c with isLastFrozenColumn := true } = f c) :
    ∀ (l : List CalculatedColumn) (n : Nat), (markLastFrozen l n).map f = l.map f := by
  intro l
  induction l with
  | nil => intro n; rfl
  | cons c cs ih =>
    intro n
    cases n with
    | zero => simp [markLastFrozen, hf]
    | succ n => simp [markLastFrozen, ih]

/-- The columns list of `getColumnMetrics`, unfolded. -/
theorem getColumnMetrics_columns (args : ColumnMetricsArgs) :
    (getColumnMetrics args).columns =
      (if 0 ≤ lastFrozenColumnIndexVal args then
        markLastFrozen (calcColumnsAux args (sortStage args) 0 0 0).1
          (lastFrozenColumnIndexVal args).toNat
      else (calcColumnsAux args (sortStage args) 0 0 0).1) := rfl

/-- The total column width of `getColumnMetrics`, unfolded. -/
theorem getColumnMetrics_totalColumnWidth (args : ColumnMetricsArgs) :
    (getColumnMetrics args).totalColumnWidth =
      (calcColumnsAux args (sortStage args) 0 0 0).2 := rfl

/-- The projection to `(left, width)` ignores the last-frozen marking. -/
theorem getColumnMetrics_columns_proj (args : ColumnMetricsArgs) :
    (getColumnMetrics args).columns.map (fun c => (c.left, c.width)) =
      (calcColumnsAux args (sortStage args) 0 0 0).1.map (fun c => (c.left, c.width)) := by
  rw [getColumnMetrics_columns]
  split
  · exact markLastFrozen_map (fun c => (c.left, c.width)) (fun c => rfl) _ _
  · rfl

/-- A `Chain'` fact can be read off at any pair of adjacent `get?` indices. -/
theorem chain'_get? {α : Type} {R : α → α → Prop} :
    ∀ {l : List α}, List.Chain' R l →
      ∀ (i : Nat) (a b : α), l.get? i = some a → l.get? (i + 1) = some b → R a b := by
  intro l
  induction l with
  | nil => intro _ i a b ha _; simp at ha
  | cons x xs ih =>
    intro h i a b ha hb
    cases i with
    | zero =>
      simp only [List.get?_cons_zero, Option.some.injEq] at ha
      subst ha
      cases xs with
      | nil => simp at hb
      | cons y ys =>
        simp only [List.get?_cons_succ, List.get?_cons_zero, Option.some.injEq] at hb
        subst hb
        exact h.rel_head
    | succ n => exact ih h.tail n a b ha hb

/-- C1: for every column list, viewport width, resize-override map and
group-by list, the calculated columns' widths sum to the returned
`totalColumnWidth`, the first left offset is `0`, and adjacent columns
satisfy `left i + width i = left (i+1)`. -/
theorem c1_column_metrics_layout (args : ColumnMetricsArgs) :
    (((getColumnMetrics args).columns.map (·.width)).sum
        = (getColumnMetrics args).totalColumnWidth)
    ∧ (∀ c, (getColumnMetrics args).columns.head? = some c → c.left = 0)
    ∧ (∀ (i : Nat) (a b : CalculatedColumn),
        (getColumnMetrics args).columns.get? i = some a →
        (getColumnMetrics args).columns.get? (i + 1) = some b →
        a.left + a.width = b.left) := by
  have hproj := getColumnMetrics_columns_proj args
  have hwidth : (getColumnMetrics args).columns.map (·.width) =
      (calcColumnsAux args (sortStage args) 0 0 0).1.map (·.width) := by
    have := congrArg (List.map Prod.snd) hproj
    simpa [List.map_map, Function.comp] using this
  have hleft : (getColumnMetrics args).columns.map (·.left) =
      (calcColumnsAux args (sortStage args) 0 0 0).1.map (·.left) := by
    have := congrArg (List.map Prod.fst) hproj
    simpa [List.map_map, Function.comp] using this
  refine ⟨?_, ?_, ?_⟩
  · rw [hwidth, getColumnMetrics_totalColumnWidth,
      calcColumnsAux_total args (sortStage args) 0 0 0]
    ring
  · intro c hc
    have h1 : ((getColumnMetrics args).columns.map (·.left)).head? = some c.left := by
      rw [List.head?_map, hc]; rfl
    rw [hleft, List.head?_map] at h1
    cases hb : (calcColumnsAux args (sortStage args) 0 0 0).1.head? with
    | none => rw [hb] at h1; simp at h1
    | some b =>
      rw [hb] at h1
      simp only [Option.map_some', Option.some.injEq] at h1
      rw [← h1]
      exact calcColumnsAux_head_left args (sortStage args) 0 0 0 b hb
  · intro i a b ha hb
    have hchain : List.Chain' (fun p q : Int × Int => p.1 + p.2 = q.1)
        ((getColumnMetrics args).columns.map (fun c => (c.left, c.width))) := by
      rw [hproj]
      exact (List.chain'_map _).2 (calcColumnsAux_chain args (sortStage args) 0 0 0)
    have hchain2 : List.Chain' (fun a b : CalculatedColumn => a.left + a.width = b.left)
        (getColumnMetrics args).columns :=
      (List.chain'_map (fun c : CalculatedColumn => (c.left, c.width))).1 hchain
    exact chain'_get? hchain2 i a b ha hb

/-- Witness for C1 at the Scenario-A input. -/
theorem c1_column_metrics_layout_witness :
    (getColumnMetrics argsA).columns.get? 0 = some colA0
    ∧ (getColumnMetrics argsA).columns.get? 1 = some colA1
    ∧ colA0.left + colA0.width = colA1.left :=
  ⟨by decide, by decide,
    (c1_column_metrics_layout argsA).2.2 0 colA0 colA1 (by decide) (by decide)⟩

/-- Buckets of the empty list are empty. -/
theorem bucketsFrom_nil {α : Type} (f : α → Nat) :
    ∀ (B n : Nat), bucketsFrom f ([] : List α) n B = [] := by
  intro B
  induction B with
  | zero => intro n; rfl
  | succ B ih => intro n; simp [bucketsFrom, ih]

/-- Members of a bucket range have an `f`-value at least the range start. -/
theorem mem_bucketsFrom {α : Type} (f : α → Nat) (l : List α) :
    ∀ (B n : Nat) (x : α), x ∈ bucketsFrom f l n B → n ≤ f x := by
  intro B
  induction B with
  | zero => intro n x h; simp [bucketsFrom] at h
  | succ B ih =>
    intro n x h
    simp only [bucketsFrom, List.mem_append] at h
    cases h with
    | inl h =>
      have := (List.mem_filter.1 h).2
      simp only [decide_eq_true_eq] at this
      omega
    | inr h =>
      have := ih (n + 1) x h
      omega

/-- `orderedInsert` walks past a prefix it does not insert into. -/
theorem orderedInsert_append_left {α : Type} (r : α → α → Prop) [DecidableRel r] (a : α) :
    ∀ (xs ys : List α), (∀ x ∈ xs, ¬ r a x) →
      List.orderedInsert r a (xs ++ ys) = xs ++ List.orderedInsert r a ys := by
  intro xs
  induction xs with
  | nil => intro ys _; rfl
  | cons x xs ih =>
    intro ys h
    simp only [List.cons_append, List.orderedInsert]
    rw [if_neg (h x (by simp))]
    simp only [List.append_eq]
    rw [ih ys (fun y hy => h y (by simp [hy]))]

/-- `orderedInsert` prepends when the element relates to every member. -/
theorem orderedInsert_all {α : Type} (r : α → α → Prop) [DecidableRel r] (a : α) :
    ∀ (ys : List α), (∀ y ∈ ys, r a y) → List.orderedInsert r a ys = a :: ys := by
  intro ys h
  cases ys with
  | nil => rfl
  | cons y ys =>
    simp only [List.orderedInsert]
    rw [if_pos (h y (by simp))]

/-- Prepending an element with a smaller `f`-value leaves later buckets
unchanged. -/
theorem bucketsFrom_cons_of_lt {α : Type} (f : α → Nat) (a : α) (l : List α) :
    ∀ (B n : Nat), f a < n → bucketsFrom f (a :: l) n B = bucketsFrom f l n B := by
  intro B
  induction B with
  | zero => intro n _; rfl
  | succ B ih =>
    intro n h
    simp only [bucketsFrom]
    rw [ih (n + 1) (by omega), List.filter_cons]
    simp [show ¬ f a = n by omega]

/-- Inserting into a bucket concatenation prepends the element to its
own bucket. -/
theorem orderedInsert_bucketsFrom {α : Type} (f : α → Nat) (r : α → α → Prop)
    [DecidableRel r] (hr : ∀ x y, r x y ↔ f x ≤ f y) (a : α) (l : List α) :
    ∀ (B n : Nat), n ≤ f a → f a < n + B →
      List.orderedInsert r a (bucketsFrom f l n B) = bucketsFrom f (a :: l) n B := by
  intro B
  induction B with
  | zero => intro n h1 h2; omega
  | succ B ih =>
    intro n h1 h2
    rcases Nat.lt_or_ge n (f a) with hlt | hge
    · simp only [bucketsFrom]
      rw [orderedInsert_append_left]
      · rw [ih (n + 1) (by omega) (by omega), List.filter_cons]
        simp [show ¬ f a = n by omega]
      · intro x hx
        have hfx := (List.mem_filter.1 hx).2
        simp only [decide_eq_true_eq] at hfx
        rw [hr]
        omega
    · have heq : f a = n := by omega
      simp only [bucketsFrom]
      rw [orderedInsert_all]
      · rw [bucketsFrom_cons_of_lt f a l B (n + 1) (by omega), List.filter_cons]
        simp [heq]
      · intro y hy
        rw [hr]
        rcases List.mem_append.1 hy with h | h
        · have := (List.mem_filter.1 h).2
          simp only [decide_eq_true_eq] at this
          omega
        · have := mem_bucketsFrom f l B (n + 1) y h
          omega

/-- A stable insertion sort whose order relation is the comparison of a
`Nat`-valued rank is exactly the concatenation of the rank buckets in
increasing rank order. -/
theorem insertionSort_bucketsFrom {α : Type} (f : α → Nat) (r : α → α → Prop)
    [DecidableRel r] (hr : ∀ x y, r x y ↔ f x ≤ f y) (B : Nat) :
    ∀ (l : List α), (∀ x ∈ l, f x < B) →
      List.insertionSort r l = bucketsFrom f l 0 B := by
  intro l
  induction l with
  | nil => intro _; rw [bucketsFrom_nil]; rfl
  | cons a l ih =>
    intro h
    simp only [List.insertionSort]
    rw [ih (fun x hx => h x (by simp [hx]))]
    exact orderedInsert_bucketsFrom f r hr a l B 0 (Nat.zero_le _)
      (by simpa using h a (by simp))

/-- Splitting a bucket range. -/
theorem bucketsFrom_add {α : Type} (f : α → Nat) (l : List α) :
    ∀ (B1 B2 n : Nat),
      bucketsFrom f l n (B1 + B2) = bucketsFrom f l n B1 ++ bucketsFrom f l (n + B1) B2 := by
  intro B1
  induction B1 with
  | zero => intro B2 n; simp [bucketsFrom]
  | succ B1 ih =>
    intro B2 n
    have h : B1 + 1 + B2 = (B1 + B2) + 1 := by omega
    rw [h]
    simp only [bucketsFrom]
    rw [ih B2 (n + 1), List.append_assoc]
    have h2 : n + 1 + B1 = n + (B1 + 1) := by omega
    rw [h2]

/-- `indexOf` of a contained element is a valid index. -/
theorem jsIndexOf_bounds {α : Type} [DecidableEq α] (a : α) :
    ∀ l : List α, a ∈ l →
      0 ≤ jsIndexOf a l ∧ jsIndexOf a l < (l.length : Int) := by
  intro l
  induction l with
  | nil => intro h; simp at h
  | cons k ks ih =>
    intro h
    simp only [jsIndexOf]
    by_cases hk : k = a
    · rw [if_pos hk]
      simp only [List.length_cons]
      omega
    · rw [if_neg hk]
      have hcont : a ∈ ks := by
        rcases List.mem_cons.1 h with h1 | h1
        · exact absurd h1.symm hk
        · exact h1
      have hb := ih hcont
      have hne : jsIndexOf a ks ≠ -1 := by omega
      rw [if_neg hne]
      simp only [List.length_cons]
      omega

/-- `indexOf` of an absent element is `-1`. -/
theorem jsIndexOf_not_mem {α : Type} [DecidableEq α] (a : α) :
    ∀ l : List α, a ∉ l → jsIndexOf a l = -1 := by
  intro l
  induction l with
  | nil => intro _; rfl
  | cons k ks ih =>
    intro h
    simp only [List.mem_cons, not_or] at h
    simp only [jsIndexOf]
    rw [if_neg (fun hk => h.1 hk.symm), ih h.2]
    rfl

/-- The rank is bounded by `gb.length + 3`. -/
theorem colRank_lt (gb : List String) (c : MidColumn) :
    colRank gb c < gb.length + 3 := by
  unfold colRank
  split_ifs with h1 h2 h3
  · omega
  · have := jsIndexOf_bounds c.key gb (by simpa using h2)
    omega
  · omega
  · omega

/-- The comparator's `≤ 0` relation coincides with rank comparison. -/
theorem compareColumns_le_iff (gbOpt : Option (List String)) (a b : MidColumn) :
    compareColumns gbOpt a b ≤ 0 ↔
      colRank (gbOpt.getD []) a ≤ colRank (gbOpt.getD []) b := by
  have Ha := jsIndexOf_bounds a.key (gbOpt.getD [])
  have Hb := jsIndexOf_bounds b.key (gbOpt.getD [])
  unfold compareColumns colRank
  by_cases hsa : a.key = SELECT_COLUMN_KEY <;>
    by_cases hsb : b.key = SELECT_COLUMN_KEY <;>
      by_cases hga : a.key ∈ gbOpt.getD [] <;>
        by_cases hgb : b.key ∈ gbOpt.getD [] <;>
          by_cases hfa : a.frozen = true <;>
            by_cases hfb : b.frozen = true <;>
              simp [hsa, hsb, hga, hgb, hfa, hfb]
  all_goals try have Ha2 := Ha hga
  all_goals try have Hb2 := Hb hgb
  all_goals omega

/-- Rank `0` characterises the select column. -/
theorem colRank_eq_zero_iff (gb : List String) (c : MidColumn) :
    colRank gb c = 0 ↔ c.key = SELECT_COLUMN_KEY := by
  unfold colRank
  split_ifs with h1 h2 h3 <;> simp [h1] <;> omega

/-- Rank `1 + i` characterises the group-by column at position `i`. -/
theorem colRank_eq_group_iff (gb : List String) (c : MidColumn) (i : Nat)
    (hi : i < gb.length) :
    colRank gb c = 1 + i ↔
      (¬ c.key = SELECT_COLUMN_KEY ∧ c.key ∈ gb ∧ jsIndexOf c.key gb = (i : Int)) := by
  unfold colRank
  split_ifs with h1 h2 h3
  · simp [h1] <;> omega
  · have hmem : c.key ∈ gb := by simpa using h2
    have hb := jsIndexOf_bounds c.key gb hmem
    simp [h1, hmem] <;> omega
  · have hmem : c.key ∉ gb := by simpa using h2
    simp [hmem] <;> omega
  · have hmem : c.key ∉ gb := by simpa using h2
    simp [hmem] <;> omega

/-- Rank `length + 1` characterises the remaining frozen columns. -/
theorem colRank_eq_frozen_iff (gb : List String) (c : MidColumn) :
    colRank gb c = gb.length + 1 ↔
      (¬ c.key = SELECT_COLUMN_KEY ∧ c.key ∉ gb ∧ c.frozen = true) := by
  unfold colRank
  split_ifs with h1 h2 h3
  · simp [h1] <;> omega
  · have hmem : c.key ∈ gb := by simpa using h2
    have hb := jsIndexOf_bounds c.key gb hmem
    simp [hmem] <;> omega
  · have hmem : c.key ∉ gb := by simpa using h2
    simp [h1, hmem, h3] <;> omega
  · have hmem : c.key ∉ gb := by simpa using h2
    simp [hmem, h3] <;> omega

/-- Rank `length + 2` characterises all other columns. -/
theorem colRank_eq_rest_iff (gb : List String) (c : MidColumn) :
    colRank gb c = gb.length + 2 ↔
      (¬ c.key = SELECT_COLUMN_KEY ∧ c.key ∉ gb ∧ ¬ c.frozen = true) := by
  unfold colRank
  split_ifs with h1 h2 h3
  · simp [h1] <;> omega
  · have hmem : c.key ∈ gb := by simpa using h2
    have hb := jsIndexOf_bounds c.key gb hmem
    simp [hmem] <;> omega
  · have hmem : c.key ∉ gb := by simpa using h2
    simp [hmem, h3] <;> omega
  · have hmem : c.key ∉ gb := by simpa using h2
    simp [h1, hmem, h3] <;> omega

/-- Bucket ranges as a flattened range map. -/
theorem bucketsFrom_eq_flatten {α : Type} (f : α → Nat) (l : List α) :
    ∀ (B n : Nat), bucketsFrom f l n B =
      ((List.range B).map (fun j => l.filter (fun x => f x = n + j))).flatten := by
  intro B
  induction B with
  | zero => intro n; rfl
  | succ B ih =>
    intro n
    rw [List.range_succ_eq_map]
    simp only [bucketsFrom, List.map_cons, List.flatten_cons, List.map_map]
    rw [ih (n + 1)]
    congr 1
    apply congrArg List.flatten
    apply List.map_congr_left
    intro j _
    simp only [Function.comp_apply]
    apply List.filter_congr
    intro x _
    rw [decide_eq_decide]
    omega

/-- A single bucket is a rank filter. -/
theorem bucketsFrom_one {α : Type} (f : α → Nat) (l : List α) (n : Nat) :
    bucketsFrom f l n 1 = l.filter (fun x => f x = n) := by
  simp [bucketsFrom]

/-- The second pass preserves each column's key and flags in order. -/
theorem calcColumnsAux_key_proj (args : ColumnMetricsArgs) (l : List MidColumn) :
    ∀ (idx : Nat) (left tw : Int),
      (calcColumnsAux args l idx left tw).1.map (fun c => (c.key, c.frozen, c.rowGroup))
        = l.map (fun c => (c.key, c.frozen, c.rowGroup)) := by
  induction l with
  | nil => intro idx left tw; rfl
  | cons c cs ih =>
    intro idx left tw
    simp only [calcColumnsAux, List.map_cons, ih]

/-- The stable sort of the mapped columns decomposes into the four
segments described by the spec. -/
theorem sortStage_segments (args : ColumnMetricsArgs) :
    sortStage args =
      selectSegment (mapStage args)
        ++ groupSegment (args.rawGroupBy.getD []) (mapStage args)
        ++ frozenSegment (args.rawGroupBy.getD []) (mapStage args)
        ++ restSegment (args.rawGroupBy.getD []) (mapStage args) := by
  have hr : ∀ x y : MidColumn,
      compareColumns args.rawGroupBy x y ≤ 0 ↔
        colRank (args.rawGroupBy.getD []) x ≤ colRank (args.rawGroupBy.getD []) y :=
    fun x y => compareColumns_le_iff args.rawGroupBy x y
  have hmain : sortStage args =
      bucketsFrom (colRank (args.rawGroupBy.getD [])) (mapStage args) 0
        ((args.rawGroupBy.getD []).length + 3) :=
    insertionSort_bucketsFrom (colRank (args.rawGroupBy.getD [])) _ hr
      ((args.rawGroupBy.getD []).length + 3) (mapStage args)
      (fun x _ => colRank_lt (args.rawGroupBy.getD []) x)
  set gb := args.rawGroupBy.getD []
  set l := mapStage args
  rw [hmain]
  have e1 : gb.length + 3 = 1 + (gb.length + (1 + 1)) := by omega
  rw [e1, bucketsFrom_add (colRank gb) l 1 (gb.length + (1 + 1)) 0]
  rw [bucketsFrom_add (colRank gb) l gb.length (1 + 1) (0 + 1)]
  rw [bucketsFrom_add (colRank gb) l 1 1 (0 + 1 + gb.length)]
  have hsel : bucketsFrom (colRank gb) l 0 1 = selectSegment l := by
    rw [bucketsFrom_one]
    apply List.filter_congr
    intro c _
    rw [decide_eq_decide]
    exact colRank_eq_zero_iff gb c
  have hgrp : bucketsFrom (colRank gb) l (0 + 1) gb.length = groupSegment gb l := by
    rw [bucketsFrom_eq_flatten]
    apply congrArg List.flatten
    apply List.map_congr_left
    intro j hj
    apply List.filter_congr
    intro c _
    rw [decide_eq_decide]
    have hjl : j < gb.length := List.mem_range.1 hj
    have := colRank_eq_group_iff gb c j hjl
    rw [show 0 + 1 + j = 1 + j by omega]
    exact this
  have hfro : bucketsFrom (colRank gb) l (0 + 1 + gb.length) 1 = frozenSegment gb l := by
    rw [bucketsFrom_one]
    apply List.filter_congr
    intro c _
    rw [decide_eq_decide]
    rw [show 0 + 1 + gb.length = gb.length + 1 by omega]
    exact colRank_eq_frozen_iff gb c
  have hrest : bucketsFrom (colRank gb) l (0 + 1 + gb.length + 1) 1 = restSegment gb l := by
    rw [bucketsFrom_one]
    apply List.filter_congr
    intro c _
    rw [decide_eq_decide]
    rw [show 0 + 1 + gb.length + 1 = gb.length + 2 by omega]
    exact colRank_eq_rest_iff gb c
  rw [hsel, hgrp, hfro, hrest]
  simp only [List.append_assoc]

/-- C6: the sorted order of the calculated columns is the reserved
select column first, then every column whose key is in the active
group-by list in the exact order of that list, then the remaining
frozen columns, then all other columns; each segment is a `filter` of
the mapped input list, so tying columns keep their original relative
order.  The first conjunct transports the order (keys and flags) of
the sorted intermediate list to the final calculated columns. -/
theorem c6_sorted_column_order (args : ColumnMetricsArgs) :
    ((getColumnMetrics args).columns.map (fun c => (c.key, c.frozen, c.rowGroup))
        = (sortStage args).map (fun c => (c.key, c.frozen, c.rowGroup)))
    ∧ sortStage args =
        selectSegment (mapStage args)
          ++ groupSegment (args.rawGroupBy.getD []) (mapStage args)
          ++ frozenSegment (args.rawGroupBy.getD []) (mapStage args)
          ++ restSegment (args.rawGroupBy.getD []) (mapStage args) := by
  constructor
  · rw [getColumnMetrics_columns]
    split
    · rw [markLastFrozen_map (fun c => (c.key, c.frozen, c.rowGroup)) (fun c => rfl)]
      exact calcColumnsAux_key_proj args (sortStage args) 0 0 0
    · exact calcColumnsAux_key_proj args (sortStage args) 0 0 0
  · exact sortStage_segments args

/-- C2 fails as stated: with 3 rows of height 10 and scroll top 1000
(scrolled past the content), the overscan start index is 96, outside
`[0, rows.length - 1] = [0, 2]`; the source clamps the start index
below by 0 but never above by `rows.length - 1`. -/
theorem c2_overscan_counterexample :
    rowOverscanStartIdx 1000 10 = 96 ∧ ¬ rowOverscanStartIdx 1000 10 ≤ (3 : Int) - 1 := by
  constructor
  · rfl
  · decide

/-- C2 (amended): provided the scroll offset additionally lies within
the content (`scrollTop < rows.length * rowHeight`), the overscan
window contains the visible row range and both overscan indices lie
within `[0, rows.length - 1]`. -/
theorem c2_overscan_window (rowsLength : Nat) (scrollTop clientHeight rowHeight : Int)
    (hst : 0 ≤ scrollTop) (hch : 0 ≤ clientHeight) (hrh : 0 < rowHeight)
    (hbound : scrollTop < (rowsLength : Int) * rowHeight) :
    rowOverscanStartIdx scrollTop rowHeight ≤ rowVisibleStartIdx scrollTop rowHeight
    ∧ rowVisibleEndIdx rowsLength scrollTop clientHeight rowHeight
        ≤ rowOverscanEndIdx rowsLength scrollTop clientHeight rowHeight
    ∧ 0 ≤ rowOverscanStartIdx scrollTop rowHeight
    ∧ rowOverscanStartIdx scrollTop rowHeight ≤ (rowsLength : Int) - 1
    ∧ 0 ≤ rowOverscanEndIdx rowsLength scrollTop clientHeight rowHeight
    ∧ rowOverscanEndIdx rowsLength scrollTop clientHeight rowHeight
        ≤ (rowsLength : Int) - 1 := by
  have h8 : ∀ x : Int, x.fdiv 8 = x / 8 := fun x => Int.fdiv_eq_ediv x (by omega)
  have hrh8 : ∀ x : Int, x.fdiv rowHeight = x / rowHeight :=
    fun x => Int.fdiv_eq_ediv x (le_of_lt hrh)
  unfold rowOverscanStartIdx rowOverscanEndIdx rowVisibleStartIdx rowVisibleEndIdx
    jsCeilDiv RENDER_BACTCH_SIZE overscanThreshold
  rw [h8, h8, hrh8, hrh8]
  have hvs0 : 0 ≤ scrollTop / rowHeight := Int.ediv_nonneg hst (le_of_lt hrh)
  have hvslt : scrollTop / rowHeight < (rowsLength : Int) :=
    (Int.ediv_lt_iff_lt_mul hrh).2 hbound
  have hvsve : scrollTop / rowHeight ≤ (scrollTop + clientHeight) / rowHeight :=
    Int.ediv_le_ediv hrh (by omega)
  generalize scrollTop / rowHeight = vs at hvs0 hvslt hvsve
  generalize (scrollTop + clientHeight) / rowHeight = vbig at hvsve
  omega

/-- Witness for the amended C2 at `rowsLength = 5`, `scrollTop = 25`,
`clientHeight = 30`, `rowHeight = 10`. -/
theorem c2_overscan_window_witness :
    ((0 : Int) ≤ 25 ∧ (0 : Int) ≤ 30 ∧ (0 : Int) < 10 ∧ (25 : Int) < (5 : Nat) * 10)
    ∧ (rowOverscanStartIdx 25 10 ≤ rowVisibleStartIdx 25 10
        ∧ rowVisibleEndIdx 5 25 30 10 ≤ rowOverscanEndIdx 5 25 30 10
        ∧ 0 ≤ rowOverscanStartIdx 25 10
        ∧ rowOverscanStartIdx 25 10 ≤ (5 : Int) - 1
        ∧ 0 ≤ rowOverscanEndIdx 5 25 30 10
        ∧ rowOverscanEndIdx 5 25 30 10 ≤ (5 : Int) - 1) :=
  ⟨⟨by decide, by decide, by decide, by decide⟩,
    by
      have h := c2_overscan_window 5 25 30 10 (by decide) (by decide) (by decide)
        (by decide)
      simpa using h⟩

/-- C8: with one group-by key and a grouper producing two groups, the
flattened display sequence is one header entry per group (with the
spec's id, level, position, set-size and startRowIndex bookkeeping),
followed by that group's rows exactly when its id is in the expanded
set.  In particular all-collapsed flattening has length 2 and
expanding the first group yields length `2 + c1.length` (5 for 3-row
groups).  The last conjunct is the depth-first traversal law at every
level: flattening a groups node emits, per group in insertion order,
one header entry, then the recursively flattened children exactly when
the group's path-joined id is in the expanded set. -/
theorem c8_group_flatten {Row : Type}
    (grouper : List Row → String → List (String × List Row))
    (rawRows : List Row) (k k1 k2 : String) (c1 c2 : List Row)
    (hg : grouper rawRows k = [(k1, c1), (k2, c2)]) (hk : ¬ k2 = k1) :
    (∀ eIds : Option (List String),
      computeRows rawRows [k] (some grouper) eIds =
        (FlatRow.group
            { id := k1, parentId := none, groupKey := k1,
              isExpanded := (eIds.getD []).contains k1, childRows := c1,
              level := 0, posInSet := 0, startRowIndex := 0, setSize := 2 }
          :: (if (eIds.getD []).contains k1 then c1.map .raw else []))
        ++ (FlatRow.group
            { id := k2, parentId := none, groupKey := k2,
              isExpanded := (eIds.getD []).contains k2, childRows := c2,
              level := 0, posInSet := 1, startRowIndex := c1.length + 1,
              setSize := 2 }
          :: (if (eIds.getD []).contains k2 then c2.map .raw else [])))
    ∧ (computeRows rawRows [k] (some grouper) none).length = 2
    ∧ (computeRows rawRows [k] (some grouper) (some [k1])).length = 2 + c1.length
    ∧ (∀ (eIds : Option (List String)) (parentId : Option String)
        (level setSize : Nat) (groupKey : String) (childRows : List Row)
        (childGroups : GroupTree Row) (sri : Nat)
        (rest : List (String × List Row × GroupTree Row × Nat)) (posInSet : Nat),
        expandEntries eIds parentId level setSize
            ((groupKey, childRows, childGroups, sri) :: rest) posInSet
          = (FlatRow.group
              { id :=
                  (match parentId with
                   | some p => p ++ "__" ++ groupKey
                   | none => groupKey),
                parentId := parentId, groupKey := groupKey,
                isExpanded := (eIds.getD []).contains
                  (match parentId with
                   | some p => p ++ "__" ++ groupKey
                   | none => groupKey),
                childRows := childRows, level := level, posInSet := posInSet,
                startRowIndex := sri, setSize := setSize }
              :: (if (eIds.getD []).contains
                    (match parentId with
                     | some p => p ++ "__" ++ groupKey
                     | none => groupKey) then
                  expandGroup eIds childGroups
                    (some (match parentId with
                           | some p => p ++ "__" ++ groupKey
                           | none => groupKey)) (level + 1)
                else []))
            ++ expandEntries eIds parentId level setSize rest (posInSet + 1)) := by
  have hmain : ∀ eIds : Option (List String),
      computeRows rawRows [k] (some grouper) eIds =
        (FlatRow.group
            { id := k1, parentId := none, groupKey := k1,
              isExpanded := (eIds.getD []).contains k1, childRows := c1,
              level := 0, posInSet := 0, startRowIndex := 0, setSize := 2 }
          :: (if (eIds.getD []).contains k1 then c1.map .raw else []))
        ++ (FlatRow.group
            { id := k2, parentId := none, groupKey := k2,
              isExpanded := (eIds.getD []).contains k2, childRows := c2,
              level := 0, posInSet := 1, startRowIndex := c1.length + 1,
              setSize := 2 }
          :: (if (eIds.getD []).contains k2 then c2.map .raw else [])) := by
    intro eIds
    simp [computeRows, groupRowsFn, hg, groupLevel, expandGroup, expandEntries]
  refine ⟨hmain, ?_, ?_, ?_⟩
  · rw [hmain none]
    simp
  · rw [hmain (some [k1])]
    have h1 : ([k1] : List String).contains k1 = true := by simp
    have h2 : ([k1] : List String).contains k2 = false := by simp [hk]
    simp [h1, h2, hk]
    omega
  · intro eIds parentId level setSize groupKey childRows childGroups sri rest posInSet
    rfl

/-- Witness for C8 at the Scenario-E input: two collapsed groups
flatten to 2 entries, expanding one gives 5. -/
theorem c8_group_flatten_witness :
    (grouperE [1, 2, 3, 4, 5, 6] "region" = [("g1", [1, 2, 3]), ("g2", [4, 5, 6])]
      ∧ ¬ "g2" = "g1")
    ∧ (computeRows [1, 2, 3, 4, 5, 6] ["region"] (some grouperE) none).length = 2
    ∧ (computeRows [1, 2, 3, 4, 5, 6] ["region"] (some grouperE)
        (some ["g1"])).length = 5 := by
  refine ⟨⟨rfl, by decide⟩, ?_, ?_⟩
  · exact (c8_group_flatten grouperE [1, 2, 3, 4, 5, 6] "region" "g1" "g2"
      [1, 2, 3] [4, 5, 6] rfl (by decide)).2.1
  · have h := (c8_group_flatten grouperE [1, 2, 3, 4, 5, 6] "region" "g1" "g2"
      [1, 2, 3] [4, 5, 6] rfl (by decide)).2.2.1
    simpa using h

/-- An out-of-range row index makes `isCellWithinBounds` false. -/
theorem isCellWithinBounds_false_of_bad_row {Row : Type} (env : GridEnv Row)
    (p : Position) (h : p.rowIdx = -1 ∨ p.rowIdx = (env.rows.length : Int)) :
    isCellWithinBounds env p = false := by
  rcases h with h | h <;> simp [isCellWithinBounds, h]

/-- C3: selecting a cell at row index `-1` or `rowCount` is rejected
with no state change and no commit, whatever the navigation mode
(hence in both `NONE` and `CHANGE_ROW`); in `LOOP_OVER_ROW` mode the
ArrowRight candidate from the last column of a row is wrapped to
column 0 of the same row; in `CHANGE_ROW` mode a candidate past the
last column of a non-last row is wrapped to `{idx := 0, rowIdx + 1}`. -/
theorem c3_selection_boundaries {Row : Type} [DecidableEq Row] :
    (∀ (env : GridEnv Row) (st : SelectedPosition Row) (p : Position)
        (enableEditor : Bool),
      (p.rowIdx = -1 ∨ p.rowIdx = (env.rows.length : Int)) →
        selectCell env st p enableEditor = (st, none))
    ∧ (∀ (env : GridEnv Row) (clientHeight rowHeight : Int) (r : Int)
        (ctrl shift : Bool),
        getNextSelectedCellPosition .LOOP_OVER_ROW env.columns.length env.rows.length
            (getNextPosition env clientHeight rowHeight
              (.select ((env.columns.length : Int) - 1) r) .ArrowRight ctrl shift)
          = ⟨0, r⟩)
    ∧ (∀ (columnsCount rowsCount : Nat) (r : Int), ¬ r = (rowsCount : Int) - 1 →
        getNextSelectedCellPosition .CHANGE_ROW columnsCount rowsCount
            ⟨(columnsCount : Int), r⟩ = ⟨0, r + 1⟩) := by
  refine ⟨?_, ?_, ?_⟩
  · intro env st p enableEditor h
    have hb := isCellWithinBounds_false_of_bad_row env p h
    simp [selectCell, hb]
  · intro env clientHeight rowHeight r ctrl shift
    have hcand : getNextPosition env clientHeight rowHeight
        (.select ((env.columns.length : Int) - 1) r) .ArrowRight ctrl shift
        = ⟨(env.columns.length : Int) - 1 + 1, r⟩ := by
      simp [getNextPosition, SelectedPosition.idx, SelectedPosition.rowIdx]
    rw [hcand]
    simp [getNextSelectedCellPosition]
  · intro columnsCount rowsCount r h
    simp [getNextSelectedCellPosition, h]

/-- C4: while in `EDIT` mode, if the displayed row at the edited row
index is no longer (reference-)equal to the snapshotted original and
the position is still inside the current bounds, the render guards
force-close the editor: mode returns to `SELECT`, the indices are
unchanged and no `onRowsChange` invocation happens. -/
theorem c4_stale_edit_force_close {Row : Type} [DecidableEq Row]
    (env : GridEnv Row) (i r : Int) (k : Option String) (row orig : Row)
    (hi : i < (env.columns.length : Int)) (hr : r < (env.rows.length : Int))
    (hstale : listGetInt env.rows r ≠ some (.raw orig)) :
    renderGuards env (.edit i r k row orig) = (.select i r, none) := by
  unfold renderGuards
  rw [if_neg (by push_neg; exact ⟨by simpa using hi, by simpa using hr⟩)]
  simp [hstale, SelectedPosition.idx, SelectedPosition.rowIdx]

/-- C7: `commitEditorChanges` is a no-op in `SELECT` mode and when the
staged row equals the pristine original; whenever it does notify, the
payload is a copy of the backing rows with the staged row written at
the raw (ungrouped) row index — in particular the entry at that index
becomes the staged row and every other entry is unchanged. -/
theorem c7_commit_editor_changes {Row : Type} [DecidableEq Row] :
    (∀ (env : GridEnv Row) (i r : Int), commitEditorChanges env (.select i r) = none)
    ∧ (∀ (env : GridEnv Row) (i r : Int) (k : Option String) (row : Row),
        commitEditorChanges env (.edit i r k row row) = none)
    ∧ (∀ (env : GridEnv Row) (i r : Int) (k : Option String) (row orig : Row)
        (payload : List Row),
        commitEditorChanges env (.edit i r k row orig) = some payload →
          payload = jsArraySet env.rawRows (getRawRowIdx env r) row)
    ∧ (∀ (l : List Row) (ri : Int) (v : Row), 0 ≤ ri → ri < (l.length : Int) →
        (jsArraySet l ri v).get? ri.toNat = some v
          ∧ ∀ j : Nat, j ≠ ri.toNat → (jsArraySet l ri v).get? j = l.get? j) := by
  refine ⟨fun env i r => rfl, ?_, ?_, ?_⟩
  · intro env i r k row
    simp only [commitEditorChanges]
    cases hc : listGetInt env.columns i with
    | none => rfl
    | some c => simp
  · intro env i r k row orig payload h
    simp only [commitEditorChanges] at h
    cases hc : listGetInt env.columns i with
    | none => rw [hc] at h; simp at h
    | some c =>
      rw [hc] at h
      by_cases he : c.editor
      · by_cases hro : row = orig
        · simp [he, hro] at h
        · by_cases hco : env.hasOnRowsChange
          · simp [he, hro, hco] at h
            exact h.symm
          · simp [he, hro, hco] at h
      · simp [he] at h
  · intro l ri v h0 hlen
    constructor
    · unfold jsArraySet
      rw [if_pos ⟨h0, hlen⟩, List.get?_eq_getElem?]
      exact List.getElem?_set_eq_of_lt v (by omega)
    · intro j hj
      unfold jsArraySet
      rw [if_pos ⟨h0, hlen⟩, List.get?_eq_getElem?, List.get?_eq_getElem?]
      exact List.getElem?_set_ne (fun hh => hj hh.symm)

/-- Witness for C3: rejecting `rowIdx = rowCount`, the `LOOP_OVER_ROW`
same-row wrap, and the Scenario-B `CHANGE_ROW` wrap `{idx 2, row 0} →
{idx 0, row 1}` in a 3×2 grid. -/
theorem c3_selection_boundaries_witness :
    (selectCell envW initialPosition ⟨1, 2⟩ false = (initialPosition, none))
    ∧ (getNextSelectedCellPosition .LOOP_OVER_ROW envW.columns.length envW.rows.length
        (getNextPosition envW 100 10 (.select 2 0) .ArrowRight false false) = ⟨0, 0⟩)
    ∧ (getNextSelectedCellPosition .CHANGE_ROW 3 2 ⟨3, 0⟩ = ⟨0, 1⟩) := by
  refine ⟨?_, ?_, ?_⟩
  · exact (@c3_selection_boundaries Nat _).1 envW initialPosition ⟨1, 2⟩ false
      (Or.inr (by decide))
  · have h := (@c3_selection_boundaries Nat _).2.1 envW 100 10 0 false false
    simpa using h
  · exact (@c3_selection_boundaries Nat _).2.2 3 2 0 (by decide)

/-- Witness for C4: editing row 0 of `envW` with a snapshot that no
longer matches the displayed row forces the editor closed in place. -/
theorem c4_stale_edit_force_close_witness :
    ((0 : Int) < (envW.columns.length : Int) ∧ (0 : Int) < (envW.rows.length : Int)
      ∧ listGetInt envW.rows 0 ≠ some (.raw 99))
    ∧ renderGuards envW (.edit 0 0 none 99 99) = (.select 0 0, none) :=
  ⟨⟨by decide, by decide, by decide⟩,
    c4_stale_edit_force_close envW 0 0 none 99 99 (by decide) (by decide) (by decide)⟩

/-- Witness for C7: committing an edit of raw row index 1 of `envW`
notifies with the backing rows updated at that index. -/
theorem c7_commit_editor_changes_witness :
    (commitEditorChanges envW (.edit 0 1 none 77 20) = some [10, 77])
    ∧ [10, 77] = jsArraySet envW.rawRows (getRawRowIdx envW 1) 77
    ∧ (jsArraySet envW.rawRows 1 77).get? 1 = some 77 := by
  refine ⟨by decide, ?_, ?_⟩
  · exact (@c7_commit_editor_changes Nat _).2.2.1 envW 0 1 none 77 20 [10, 77] (by decide)
  · exact ((@c7_commit_editor_changes Nat _).2.2.2 envW.rawRows 1 77 (by decide)
      (by decide)).1

/-- C5 fails on the code under grouping: pasting into the selected
cell at display row 2 reads the target row at raw index 1 (row `20`)
but writes the merged row at display index 2, replacing raw row `30`
instead of the target row.  `onRowsChange` receives `[10, 20, 999]`
while replacing the target row at its raw index would give
`[10, 999, 30]`. -/
theorem c5_paste_writes_display_index :
    handlePaste pasteEnv (.select 0 2) (some ⟨10, "x"⟩) = some [10, 20, 999]
    ∧ getRawRowIdx pasteEnv 2 = 1
    ∧ jsArraySet pasteEnv.rawRows (getRawRowIdx pasteEnv 2) 999 = [10, 999, 30]
    ∧ ¬ (some [10, 20, 999]
          = some (jsArraySet pasteEnv.rawRows (getRawRowIdx pasteEnv 2) 999)) := by
  refine ⟨by decide, by decide, by decide, by decide⟩

/-- C9: every row-selection operation — single toggle, shift-click
range, group toggle (all events of `handleRowSelectionChange`) and
select-all (when selection is enabled) — throws immediately when no
valid row-key-getter function was supplied; none is a silent no-op. -/
theorem c9_selection_requires_key_getter {Row K : Type} [DecidableEq Row]
    [DecidableEq K] :
    (∀ (rows : List (FlatRow Row)) (selectedRows : List K)
        (lastIdx rowIdx : Int) (checked isShiftClick : Bool),
      handleRowSelectionChange rows (none : Option (Row → K)) selectedRows
          lastIdx rowIdx checked isShiftClick = .error .invalidKeyGetter)
    ∧ (∀ (rows : List Row) (checked : Bool),
      handleAllRowsSelectionChange rows (none : Option (Row → K)) true checked
        = .error .invalidKeyGetter) :=
  ⟨fun _ _ _ _ _ _ => rfl, fun _ _ => rfl⟩

/-- C10 fails as stated: select the group row (`{idx -1, rowIdx 0}`,
legal while grouping is active), then deactivate grouping and render.
The reset guard checks only the upper bounds (`idx >= columns.length`,
`rowIdx >= rows.length`), so the position survives as `{idx -1,
rowIdx 0}` even though `minColIdx` is now 0 — the claimed invariant is
violated and the position was not reset to the sentinel despite the
row set shrinking. -/
theorem c10_claimed_invariant_counterexample :
    stepOp envG2 .renderOp
        (stepOp envG1 (.selectCellOp ⟨-1, 0⟩ false) initialPosition)
      = SelectedPosition.select (-1) 0
    ∧ ¬ claimedInvariant envG2 (SelectedPosition.select (-1) 0) :=
  ⟨by decide, by decide⟩

/-- The column lower bound is at least `-1` in every environment. -/
theorem minColIdx_ge {Row : Type} (env : GridEnv Row) : (-1 : Int) ≤ minColIdx env := by
  unfold minColIdx
  split <;> omega

/-- Unpacking `isCellWithinBounds`. -/
theorem isCellWithinBounds_iff {Row : Type} (env : GridEnv Row) (p : Position) :
    isCellWithinBounds env p = true ↔
      (0 ≤ p.rowIdx ∧ p.rowIdx < (env.rows.length : Int) ∧
        minColIdx env ≤ p.idx ∧ p.idx < (env.columns.length : Int)) := by
  simp [isCellWithinBounds, and_assoc]

/-- The invariant survives collapsing to `SELECT` at the same indices. -/
theorem invariant_select_same {Row : Type} (env : GridEnv Row)
    (st : SelectedPosition Row) (h : selectionInvariant env st) :
    selectionInvariant env (.select st.idx st.rowIdx) := by
  rcases h with h | h
  · rw [h]
    exact Or.inl rfl
  · exact Or.inr h

/-- `closeEditor` keeps the indices. -/
theorem closeEditor_eq_select {Row : Type} (st : SelectedPosition Row) :
    closeEditor st = .select st.idx st.rowIdx := by
  cases st <;> rfl

/-- `selectCell` preserves the invariant. -/
theorem selectCell_invariant {Row : Type} [DecidableEq Row] (env : GridEnv Row)
    (st : SelectedPosition Row) (p : Position) (e : Bool)
    (h : selectionInvariant env st) :
    selectionInvariant env (selectCell env st p e).1 := by
  unfold selectCell
  cases hb : isCellWithinBounds env p with
  | false => simpa [hb] using h
  | true =>
    have hbp := (isCellWithinBounds_iff env p).1 hb
    have hmin := minColIdx_ge env
    simp only [hb, Bool.not_true, Bool.false_eq_true, if_false]
    split
    · split
      · exact Or.inr ⟨hbp.1, hbp.2.1, le_trans hmin hbp.2.2.1, hbp.2.2.2⟩
      · exact Or.inr ⟨hbp.1, hbp.2.1, le_trans hmin hbp.2.2.1, hbp.2.2.2⟩
    · exact Or.inr ⟨hbp.1, hbp.2.1, le_trans hmin hbp.2.2.1, hbp.2.2.2⟩

/-- `navigate` preserves the invariant. -/
theorem navigate_invariant {Row : Type} [DecidableEq Row] (env : GridEnv Row)
    (ch rh : Int) (st : SelectedPosition Row) (key : NavKey) (c s a : Bool)
    (h : selectionInvariant env st) :
    selectionInvariant env (navigate env ch rh st key c s a).1 := by
  unfold navigate
  split
  · exact h
  · split
    · exact h
    · exact selectCell_invariant env st _ false h

/-- `handleCellInput` preserves the invariant. -/
theorem handleCellInput_invariant {Row : Type} [DecidableEq Row] (env : GridEnv Row)
    (st : SelectedPosition Row) (k : Option String) (e d pv : Bool)
    (h : selectionInvariant env st) :
    selectionInvariant env (handleCellInput env st k e d pv).1 := by
  unfold handleCellInput
  cases hb : isCellWithinBounds env ⟨st.idx, st.rowIdx⟩ with
  | false => simpa [hb] using h
  | true =>
    have hbp := (isCellWithinBounds_iff env ⟨st.idx, st.rowIdx⟩).1 hb
    have hmin := minColIdx_ge env
    simp only [hb, Bool.not_true, Bool.false_eq_true, if_false]
    cases hrow : listGetInt env.rows st.rowIdx with
    | none => exact h
    | some fr =>
      cases fr with
      | group g => exact h
      | raw r =>
        cases st with
        | edit i ri k0 row orig =>
          dsimp only
          split
          · exact invariant_select_same env (.edit i ri k0 row orig) h
          · exact h
        | select i ri =>
          dsimp only
          split
          · exact h
          · split
            · exact Or.inr ⟨hbp.1, hbp.2.1, le_trans hmin hbp.2.2.1, hbp.2.2.2⟩
            · exact h

/-- `handleRowChange` preserves the invariant. -/
theorem handleRowChange_invariant {Row : Type} [DecidableEq Row] (env : GridEnv Row)
    (st : SelectedPosition Row) (row : Row) (c : Bool)
    (h : selectionInvariant env st) :
    selectionInvariant env (handleRowChange env st row c).1 := by
  cases st with
  | select i r => exact h
  | edit i r k0 row0 orig =>
    unfold handleRowChange
    dsimp only
    rcases h with h | h
    · exact absurd h (by simp)
    · split
      · exact Or.inr h
      · exact Or.inr h

/-- The render guards establish the invariant for the environment they
run against, whatever environment the incoming state was valid for. -/
theorem renderGuards_invariant {Row : Type} [DecidableEq Row]
    (env env' : GridEnv Row) (st : SelectedPosition Row)
    (h : selectionInvariant env st) :
    selectionInvariant env' (renderGuards env' st).1 := by
  unfold renderGuards
  by_cases hg : (env'.columns.length : Int) ≤ st.idx ∨ (env'.rows.length : Int) ≤ st.rowIdx
  · rw [if_pos hg]
    cases st with
    | select i r => exact Or.inl rfl
    | edit i r k row orig =>
      dsimp only
      split
      · exact Or.inl rfl
      · exact Or.inl rfl
  · rw [if_neg hg]
    push_neg at hg
    cases st with
    | select i r =>
      rcases h with h | h
      · exact Or.inl h
      · exact Or.inr ⟨h.1, hg.2, h.2.2.1, hg.1⟩
    | edit i r k row orig =>
      rcases h with h | h
      · exact absurd h (by simp)
      · dsimp only
        split
        · exact Or.inr ⟨h.1, hg.2, h.2.2.1, hg.1⟩
        · exact Or.inr ⟨h.1, hg.2, h.2.2.1, hg.1⟩

/-- The out-of-bounds reset branch of the render guards yields the
sentinel. -/
theorem renderGuards_reset {Row : Type} [DecidableEq Row] (env : GridEnv Row)
    (st : SelectedPosition Row)
    (hg : (env.columns.length : Int) ≤ st.idx ∨ (env.rows.length : Int) ≤ st.rowIdx) :
    (renderGuards env st).1 = initialPosition := by
  unfold renderGuards
  rw [if_pos hg]
  cases st with
  | select i r => rfl
  | edit i r k row orig =>
    dsimp only
    split
    · rfl
    · rfl

/-- C10 (amended): the machine keeps the invariant "sentinel, or
`rowIdx ∈ [0, rows.length)` and `idx ∈ [-1, columns.length)`" — the
column lower bound is `-1` regardless of grouping, because the reset
guard never checks `minColIdx`.  Every operation preserves it in its
environment; a render (also after an external change of rows, columns
or grouping) re-establishes it for the new environment; `selectCell`
rejects out-of-bounds targets with no state change and no commit; and
the render guard resets to the sentinel exactly when the position
exceeds the current column or row count. -/
theorem c10_selection_invariant {Row : Type} [DecidableEq Row] :
    (∀ (env : GridEnv Row) (st : SelectedPosition Row), selectionInvariant env st →
      ∀ op : GridOp Row, selectionInvariant env (stepOp env op st))
    ∧ (∀ (env env' : GridEnv Row) (st : SelectedPosition Row),
        selectionInvariant env st →
          selectionInvariant env' (stepOp env' .renderOp st))
    ∧ (∀ (env : GridEnv Row) (st : SelectedPosition Row) (p : Position) (e : Bool),
        isCellWithinBounds env p = false → selectCell env st p e = (st, none))
    ∧ (∀ (env : GridEnv Row) (st : SelectedPosition Row),
        ((env.columns.length : Int) ≤ st.idx ∨ (env.rows.length : Int) ≤ st.rowIdx) →
          (renderGuards env st).1 = initialPosition) := by
  refine ⟨?_, ?_, ?_, ?_⟩
  · intro env st h op
    cases op with
    | selectCellOp p e => exact selectCell_invariant env st p e h
    | closeEditorOp =>
      rw [stepOp, closeEditor_eq_select]
      exact invariant_select_same env st h
    | navigateOp ch rh key c s a => exact navigate_invariant env ch rh st key c s a h
    | cellInputOp k e d pv => exact handleCellInput_invariant env st k e d pv h
    | rowChangeOp row c => exact handleRowChange_invariant env st row c h
    | commitOp => exact h
    | renderOp => exact renderGuards_invariant env env st h
  · intro env env' st h
    exact renderGuards_invariant env env' st h
  · intro env st p e hb
    simp [selectCell, hb]
  · intro env st hg
    exact renderGuards_reset env st hg

/-- Witness for the amended C10: invariant preservation across a
select step and a render after deactivating grouping, an out-of-bounds
`selectCell` rejection, and a reset by the render guard. -/
theorem c10_selection_invariant_witness :
    (selectionInvariant envW (SelectedPosition.select 0 0)
      ∧ selectionInvariant envW
          (stepOp envW (.selectCellOp ⟨2, 1⟩ false) (SelectedPosition.select 0 0)))
    ∧ selectionInvariant envG2 (stepOp envG2 .renderOp (SelectedPosition.select 0 0))
    ∧ (isCellWithinBounds envW ⟨0, 5⟩ = false
      ∧ selectCell envW (SelectedPosition.select 0 0) ⟨0, 5⟩ false
          = (SelectedPosition.select 0 0, none))
    ∧ ((envW.columns.length : Int) ≤ 7 ∨ (envW.rows.length : Int) ≤ 0)
    ∧ (renderGuards envW (SelectedPosition.select 7 0)).1 = initialPosition := by
  refine ⟨⟨by decide, ?_⟩, ?_, ⟨by decide, ?_⟩, Or.inl (by decide), ?_⟩
  · exact (@c10_selection_invariant Nat _).1 envW (SelectedPosition.select 0 0)
      (by decide) (.selectCellOp ⟨2, 1⟩ false)
  · exact (@c10_selection_invariant Nat _).2.1 envW envG2 (SelectedPosition.select 0 0)
      (by decide)
  · exact (@c10_selection_invariant Nat _).2.2.1 envW (SelectedPosition.select 0 0)
      ⟨0, 5⟩ false (by decide)
  · exact (@c10_selection_invariant Nat _).2.2.2 envW (SelectedPosition.select 7 0)
      (Or.inl (by decide))

end ReactDataGrid
